import Mathlib

/-!
Verification of the ClusterQueue cache of Kueue (`pkg/cache/clusterqueue.go`).

The Go code is shallowly embedded: the `clusterQueue` struct becomes a Lean
structure, Go maps keyed by strings become association lists
(`List (String × _)`), Go `map[FlavorResource]int64` quantity maps become
total functions `FlavorResource → Int` (absent key = 0, which matches Go's
zero-value read semantics; key sets are abstracted to value level), and the
methods become pure state-transformer functions.  Feature gates
(`features.Enabled`) become a `Flags` record passed explicitly.  Logging and
metrics calls have no effect on the modelled state and are dropped.

Helpers that live in other packages of the repository
(`pkg/workload`, `pkg/resources`, `pkg/hierarchy`, `resource_node.go`,
`pkg/util/admissioncheck`, `pkg/util/api`, the kueue API constants) are not
part of the sources; where a claim needs them they are modelled from the
specification, with a doc comment starting `Modelled from the spec:`.
The queue is modelled without a cohort parent (the hierarchy package is
absent and no claim mentions cohorts), so the no-parent branch of
`updateClusterQueue` is the one embedded.
-/

namespace KueueCache

/-- Feature gates relevant to `clusterqueue.go` (`features.Enabled(...)`). -/
structure Flags where
  topologyAwareScheduling : Bool
  admissionCheckValidationRules : Bool
deriving DecidableEq

/-- Embedding of `resources.FlavorResource`: a (flavor, resource) pair. -/
structure FlavorResource where
  flavor : String
  resource : String
deriving DecidableEq

/-- Modelled from the spec: `resources.FlavorResourceQuantities`
("Primitive quantities keyed by (flavor, resource) pairs").  Go maps with
int64 values are modelled extensionally as total functions, a missing key
reading as 0. -/
def FlavorResourceQuantities : Type := FlavorResource → Int

/-- The all-zero quantity map (a fresh/empty Go map). -/
def zeroFRQ : FlavorResourceQuantities := fun _ => 0

/-- Modelled from the spec: a `Workload` together with the computed fields of
`workload.Info` ("Unique key (namespace/name). ... Computed fields:
FlavorResourceUsage (total demand per flavor/resource pair)"; admitted means
the `Admitted` condition is true).  `workload.NewInfo` recomputes these fields
from the object, so the info is identified with the object. -/
structure Workload where
  ns : String
  name : String
  queueName : String
  admitted : Bool
  podsReady : Bool
  usage : FlavorResourceQuantities
  usesTAS : Bool

/-- Modelled from the spec: `workload.Key(w)` — "Unique key (namespace/name)". -/
def wlKey (w : Workload) : String := w.ns ++ "/" ++ w.name

/-- Modelled from the spec: `workload.QueueKey(w)` — the (namespace, queue
name) key of the LocalQueue the workload belongs to. -/
def wlQueueKey (w : Workload) : String := w.ns ++ "/" ++ w.queueName

/-- Embedding of `kueue.LocalQueue` (the fields used by `clusterqueue.go`). -/
structure LocalQueue where
  ns : String
  name : String

/-- Embedding of `queueKey(q)`: the localQueues map key, `namespace/name`. -/
def queueKey (q : LocalQueue) : String := q.ns ++ "/" ++ q.name

/-- The `queue` struct of `clusterqueue.go` (per-LocalQueue counters). -/
structure queue where
  key : String
  reservingWorkloads : Int
  admittedWorkloads : Int
  totalReserved : FlavorResourceQuantities
  admittedUsage : FlavorResourceQuantities

/-- Embedding of `metrics.ClusterQueueStatus` with its three values. -/
inductive CQStatus where
  | pending
  | active
  | terminating
deriving DecidableEq

/-- Embedding of `cache.AdmissionCheck` (the projection of an AdmissionCheck kept by the
cache). -/
structure AdmissionCheck where
  Active : Bool
  Controller : String
  SingleInstanceInClusterQueue : Bool
  FlavorIndependent : Bool

/-- Embedding of `kueue.MultiKueueControllerName`. -/
def MultiKueueControllerName : String := "kueue.x-k8s.io/multikueue"

/-- Embedding of `kueue.ProvisioningRequestControllerName`. -/
def ProvisioningRequestControllerName : String := "kueue.x-k8s.io/provisioning-request"

/-- A quota triple of `ResourceQuota` as stored per (flavor, resource):
nominal, optional borrowing limit, optional lending limit. -/
structure QuotaLimits where
  nominal : Int
  borrowingLimit : Option Int
  lendingLimit : Option Int
deriving DecidableEq

/-- Embedding of `cache.ResourceGroup` (CoveredResources is a string set in Go; it is kept
here as a canonical sorted deduplicated list so that Go's semantic set
equality coincides with list equality). -/
structure ResourceGroup where
  CoveredResources : List String
  Flavors : List String
  LabelKeys : Option (List String)
deriving DecidableEq

/-- Embedding of `cache.ResourceNode`, restricted to the fields `clusterqueue.go` touches:
the quota map and the usage map.  (SubtreeQuota aggregation lives in the
absent `resource_node.go` and is not referenced by any claim.) -/
structure ResourceNode where
  Quotas : List (FlavorResource × QuotaLimits)
  Usage : FlavorResourceQuantities

/-- Embedding of `kueue.ResourceFlavor` as consulted by `updateLabelKeys`: its node-label
keys and its optional topology name. -/
structure ResourceFlavorSpec where
  nodeLabels : List String
  topologyName : Option String

/-- The `clusterQueue` struct of `clusterqueue.go` (fields relevant to the
cache semantics; logger/metrics handles omitted). -/
structure clusterQueue where
  Name : String
  ResourceGroups : List ResourceGroup
  Workloads : List (String × Workload)
  WorkloadsNotReady : List String
  NamespaceSelector : String
  AdmissionChecks : List (String × List String)
  Status : CQStatus
  AllocatableResourceGeneration : Int
  AdmittedUsage : FlavorResourceQuantities
  localQueues : List (String × queue)
  podsReadyTracking : Bool
  missingFlavors : List String
  missingAdmissionChecks : List String
  inactiveAdmissionChecks : List String
  multipleSingleInstanceControllersChecks : List (String × List String)
  flavorIndependentAdmissionCheckAppliedPerFlavor : List String
  multiKueueAdmissionChecks : List String
  provisioningAdmissionChecks : List String
  perFlavorMultiKueueAdmissionChecks : List String
  tasFlavors : List (String × String)
  admittedWorkloadsCount : Int
  isStopped : Bool
  resourceNode : ResourceNode
  tasCacheHas : String → Bool
  workloadsNotAccountedForTAS : List String

/-- Embedding of `c.Active()`. -/
def clusterQueue.ActiveQ (c : clusterQueue) : Bool := c.Status = CQStatus.active

/- ### association-list and set helpers (Go map / sets.Set operations) -/

/-- Go map read `m[k]` (comma-ok form). -/
def assocLookup {α : Type} (l : List (String × α)) (k : String) : Option α :=
  (l.find? (fun p => p.1 = k)).map (fun p => p.2)

/-- Go map write `m[k] = v` (replaces an existing binding). -/
def assocPut {α : Type} (l : List (String × α)) (k : String) (v : α) :
    List (String × α) :=
  (k, v) :: l.filter (fun p => ¬ p.1 = k)

/-- Go map `delete(m, k)`. -/
def assocErase {α : Type} (l : List (String × α)) (k : String) :
    List (String × α) :=
  l.filter (fun p => ¬ p.1 = k)

/-- Go map update of the value a key points at (pointer mutation of `m[k]`). -/
def assocUpdate {α : Type} (l : List (String × α)) (k : String) (f : α → α) :
    List (String × α) :=
  l.map (fun p => if p.1 = k then (p.1, f p.2) else p)

/-- Embedding of `sets.Set.Insert` on a list-modelled string set. -/
def listInsert (l : List String) (k : String) : List String :=
  if k ∈ l then l else l ++ [k]

/-- Embedding of `sets.Set.Delete` on a list-modelled string set. -/
def listErase (l : List String) (k : String) : List String :=
  l.filter (fun x => ¬ x = k)

/-- Append `v` to the slice stored under `k` (Go `m[k] = append(m[k], v)`). -/
def assocAppend (l : List (String × List String)) (k : String) (v : String) :
    List (String × List String) :=
  match assocLookup l k with
  | some _ => assocUpdate l k (fun vs => vs ++ [v])
  | none => l ++ [(k, [v])]

/-- Embedding of `slices.Sort` on strings. -/
def sortStr (l : List String) : List String :=
  l.insertionSort (fun a b => a ≤ b)

/-- Sort an association list by key (`slices.Sorted(maps.Keys(m))` iteration
order of a Go map). -/
def sortAssocByKey {α : Type} (l : List (String × α)) : List (String × α) :=
  l.insertionSort (fun a b => a.1 ≤ b.1)

/- ### workload bookkeeping (`updateWorkloadUsage` and friends) -/

/-- Embedding of `updateFlavorUsage(newUsage, oldUsage, m)`: `oldUsage[fr] += q*m` for every
`(fr, q)` in `newUsage` (outside `newUsage`'s support the addend is 0). -/
def updateFlavorUsage (newUsage oldUsage : FlavorResourceQuantities) (m : Int) :
    FlavorResourceQuantities :=
  fun fr => oldUsage fr + newUsage fr * m

/-- Modelled from the spec: `addUsage` of `resource_node.go` — adds a
workload's usage into the queue's usage map ("Per-queue usage = Σ over its
workloads of the workload's FlavorResourceUsage"); cohort propagation is out
of scope (no parent). -/
def addUsage (u frUsage : FlavorResourceQuantities) : FlavorResourceQuantities :=
  fun fr => u fr + frUsage fr

/-- Modelled from the spec: `removeUsage` of `resource_node.go` — subtracts a
workload's usage from the queue's usage map. -/
def removeUsage (u frUsage : FlavorResourceQuantities) : FlavorResourceQuantities :=
  fun fr => u fr - frUsage fr

/-- Embedding of `c.isTASSynced()`: every TAS flavor is present in the TAS cache. -/
def isTASSynced (c : clusterQueue) : Bool :=
  c.tasFlavors.all (fun p => c.tasCacheHas p.1)

/-- Embedding of `c.updateWorkloadTASUsage(wi, m)`, restricted to the modelled state: the
per-flavor TAS cache usage (`tasFlvCache.addUsage/removeUsage`) lives in the
absent TAS cache module and is not referenced by any claim; the effect on
`workloadsNotAccountedForTAS` is embedded faithfully. -/
def updateWorkloadTASUsage (fl : Flags) (c : clusterQueue) (wi : Workload)
    (_m : Int) : clusterQueue :=
  if ¬ fl.topologyAwareScheduling ∨ ¬ wi.usesTAS then c
  else
    let key := wlKey wi
    if ¬ isTASSynced c then
      { c with workloadsNotAccountedForTAS :=
          listInsert c.workloadsNotAccountedForTAS key }
    else
      { c with workloadsNotAccountedForTAS :=
          listErase c.workloadsNotAccountedForTAS key }

/-- The per-LocalQueue part of `updateWorkloadUsage`. -/
def updateLocalQueueUsage (lq : queue) (frUsage : FlavorResourceQuantities)
    (admitted : Bool) (m : Int) : queue :=
  let lq := { lq with
    totalReserved := updateFlavorUsage frUsage lq.totalReserved m,
    reservingWorkloads := lq.reservingWorkloads + m }
  if admitted then
    { lq with
      admittedUsage := updateFlavorUsage frUsage lq.admittedUsage m,
      admittedWorkloads := lq.admittedWorkloads + m }
  else lq

/-- Embedding of `c.updateWorkloadUsage(wi, m)`. -/
def updateWorkloadUsage (fl : Flags) (c : clusterQueue) (wi : Workload)
    (m : Int) : clusterQueue :=
  let admitted := wi.admitted
  let frUsage := wi.usage
  let c := { c with resourceNode.Usage :=
      if m = 1 then addUsage c.resourceNode.Usage frUsage
      else if m = -1 then removeUsage c.resourceNode.Usage frUsage
      else c.resourceNode.Usage }
  let c := updateWorkloadTASUsage fl c wi m
  let c := if admitted then
      { c with AdmittedUsage := updateFlavorUsage frUsage c.AdmittedUsage m,
               admittedWorkloadsCount := c.admittedWorkloadsCount + m }
    else c
  let qKey := wlQueueKey wi
  match assocLookup c.localQueues qKey with
  | some _ =>
      { c with localQueues :=
          (assocUpdate c.localQueues qKey
            (fun lq => updateLocalQueueUsage lq frUsage admitted m)) }
  | none => c

/-- Embedding of `c.deleteWorkload(w)`. -/
def deleteWorkload (fl : Flags) (c : clusterQueue) (w : Workload) : clusterQueue :=
  let k := wlKey w
  match assocLookup c.Workloads k with
  | none => c
  | some wi =>
    let c := updateWorkloadUsage fl c wi (-1)
    let c := if c.podsReadyTracking ∧ ¬ w.podsReady then
        { c with WorkloadsNotReady := listErase c.WorkloadsNotReady k }
      else c
    let c := { c with
      AllocatableResourceGeneration := c.AllocatableResourceGeneration + 1 }
    { c with Workloads := assocErase c.Workloads k }

/-- Embedding of `c.addOrUpdateWorkload(w)`. -/
def addOrUpdateWorkload (fl : Flags) (c : clusterQueue) (w : Workload) :
    clusterQueue :=
  let k := wlKey w
  let c := if (assocLookup c.Workloads k).isSome then deleteWorkload fl c w else c
  let wi := w
  let c := { c with Workloads := assocPut c.Workloads k wi }
  let c := updateWorkloadUsage fl c wi 1
  if c.podsReadyTracking ∧ ¬ w.podsReady then
    { c with WorkloadsNotReady := listInsert c.WorkloadsNotReady k }
  else c

/-- The error message of `addWorkload`. -/
def errWorkloadAlreadyExists : String := "workload already exists in ClusterQueue"

/-- Embedding of `errQueueAlreadyExists`. -/
def errQueueAlreadyExists : String := "queue already exists"

/-- Embedding of `c.addWorkload(w)`: the resulting state together with the returned error
(`none` = success; on error the state is untouched, the Go method returns
before mutating). -/
def addWorkload (fl : Flags) (c : clusterQueue) (w : Workload) :
    clusterQueue × Option String :=
  if (assocLookup c.Workloads (wlKey w)).isSome then
    (c, some errWorkloadAlreadyExists)
  else
    (addOrUpdateWorkload fl c w, none)

/-- Embedding of `c.forgetWorkload(w)`. -/
def forgetWorkload (fl : Flags) (c : clusterQueue) (w : Workload) : clusterQueue :=
  let c := deleteWorkload fl c w
  { c with workloadsNotAccountedForTAS :=
      listErase c.workloadsNotAccountedForTAS (wlKey w) }

/- ### queue status (`updateQueueStatus`, `isTASViolated`) -/

/-- Embedding of `c.isTASViolated()`. -/
def isTASViolated (fl : Flags) (c : clusterQueue) : Bool :=
  if ¬ fl.topologyAwareScheduling ∨ c.tasFlavors.isEmpty then false
  else if ¬ isTASSynced c then true
  else ¬ c.multiKueueAdmissionChecks.isEmpty ∨
    ¬ c.provisioningAdmissionChecks.isEmpty

/-- The disjunction deciding `status = pending` inside `updateQueueStatus`. -/
def statusConditions (fl : Flags) (c : clusterQueue) : Bool :=
  c.isStopped ∨
  ¬ c.missingFlavors.isEmpty ∨
  ¬ c.missingAdmissionChecks.isEmpty ∨
  ¬ c.inactiveAdmissionChecks.isEmpty ∨
  ¬ c.multipleSingleInstanceControllersChecks.isEmpty ∨
  ¬ c.flavorIndependentAdmissionCheckAppliedPerFlavor.isEmpty ∨
  isTASViolated fl c ∨
  c.multiKueueAdmissionChecks.length > 1 ∨
  ¬ c.perFlavorMultiKueueAdmissionChecks.isEmpty

/-- The delayed-TAS-accounting loop at the top of `updateQueueStatus`:
re-adds every workload still in `workloadsNotAccountedForTAS` and drops it
from the set (the range is over the workloads known on entry). -/
def tasDelayedAccountingLoop (fl : Flags) (c0 : clusterQueue) : clusterQueue :=
  c0.Workloads.foldl
    (fun c p =>
      if p.1 ∈ c.workloadsNotAccountedForTAS then
        let c := addOrUpdateWorkload fl c p.2
        { c with workloadsNotAccountedForTAS :=
            listErase c.workloadsNotAccountedForTAS p.1 }
      else c)
    c0

/-- Embedding of `c.updateQueueStatus()`. -/
def updateQueueStatus (fl : Flags) (c : clusterQueue) : clusterQueue :=
  let c :=
    if fl.topologyAwareScheduling ∧ ¬ c.tasFlavors.isEmpty ∧
        ¬ c.workloadsNotAccountedForTAS.isEmpty ∧ isTASSynced c then
      tasDelayedAccountingLoop fl c
    else c
  let status := if statusConditions fl c then CQStatus.pending else CQStatus.active
  let status := if c.Status = CQStatus.terminating then CQStatus.terminating else status
  { c with Status := status }

/- ### flavors (`UpdateWithFlavors`, `updateLabelKeys`) -/

/-- The inner per-resource-group loop body of `updateLabelKeys`: given the
flavor environment, one resource group, and the accumulated missing-flavor
and TAS-flavor lists, returns the rewritten group and the new accumulators. -/
def updateLabelKeysRG (flavors : List (String × ResourceFlavorSpec))
    (rg : ResourceGroup) (missing : List String) (tas : List (String × String)) :
    ResourceGroup × List String × List (String × String) :=
  if rg.Flavors.isEmpty then ({ rg with LabelKeys := none }, missing, tas)
  else
    let st := rg.Flavors.foldl
      (fun (st : List String × List String × List (String × String)) fName =>
        match assocLookup flavors fName with
        | some flv =>
            (flv.nodeLabels.foldl listInsert st.1,
             st.2.1,
             match flv.topologyName with
             | some t => assocPut st.2.2 fName t
             | none => st.2.2)
        | none => (st.1, st.2.1 ++ [fName], st.2.2))
      ([], missing, tas)
    let rg := if st.1.length > 0 then { rg with LabelKeys := some st.1 } else rg
    (rg, st.2.1, st.2.2)

/-- Embedding of `c.updateLabelKeys(flavors)`: resets `missingFlavors` and `tasFlavors`
and recomputes them (with each group's `LabelKeys`) from the flavor set. -/
def updateLabelKeys (c : clusterQueue)
    (flavors : List (String × ResourceFlavorSpec)) : clusterQueue :=
  let acc := c.ResourceGroups.foldl
    (fun (acc : List ResourceGroup × List String × List (String × String)) rg =>
      let r := updateLabelKeysRG flavors rg acc.2.1 acc.2.2
      (acc.1 ++ [r.1], r.2.1, r.2.2))
    ([], [], [])
  { c with ResourceGroups := acc.1, missingFlavors := acc.2.1, tasFlavors := acc.2.2 }

/-- Embedding of `c.UpdateWithFlavors(flavors)`. -/
def UpdateWithFlavors (fl : Flags) (c : clusterQueue)
    (flavors : List (String × ResourceFlavorSpec)) : clusterQueue :=
  updateQueueStatus fl (updateLabelKeys c flavors)

/- ### admission checks (`updateWithAdmissionChecks`) -/

/-- Accumulators of the scan over `c.AdmissionChecks` in
`updateWithAdmissionChecks`. -/
structure ACScan where
  checksPerController : List (String × List String)
  singleInstanceControllers : List String
  multiKueueChecks : List String
  provisioningChecks : List String
  missing : List String
  inactive : List String
  flavorIndependentOnFlavors : List String
  perFlavorMultiKueueChecks : List String

/-- One iteration of the scan: one `(acName, flavors)` entry of
`c.AdmissionChecks` against the AdmissionCheck environment. -/
def acScanStep (checks : List (String × AdmissionCheck)) (s : ACScan)
    (p : String × List String) : ACScan :=
  match assocLookup checks p.1 with
  | none => { s with missing := s.missing ++ [p.1] }
  | some ac =>
    let s := if ¬ ac.Active then { s with inactive := s.inactive ++ [p.1] } else s
    let s := { s with checksPerController :=
                 assocAppend s.checksPerController ac.Controller p.1 }
    let s := if ac.SingleInstanceInClusterQueue then
        { s with singleInstanceControllers :=
            listInsert s.singleInstanceControllers ac.Controller }
      else s
    let s := if ac.FlavorIndependent ∧ ¬ p.2.isEmpty then
        { s with flavorIndependentOnFlavors := s.flavorIndependentOnFlavors ++ [p.1] }
      else s
    let s := if ac.Controller = ProvisioningRequestControllerName then
        { s with provisioningChecks := listInsert s.provisioningChecks p.1 }
      else s
    if ac.Controller = MultiKueueControllerName then
      let s := { s with multiKueueChecks := listInsert s.multiKueueChecks p.1 }
      if ¬ p.2.isEmpty then
        { s with perFlavorMultiKueueChecks := s.perFlavorMultiKueueChecks ++ [p.1] }
      else s
    else s

/-- One Go `if !slices.Equal(c.field, new) { c.field = new; update = true }`
step: a change test on the current state and the assignment to perform. -/
structure CondSet where
  needs : clusterQueue → Bool
  apply : clusterQueue → clusterQueue

/-- Run a sequence of conditional assignments, tracking the `update` flag. -/
def runCondSets : clusterQueue × Bool → List CondSet → clusterQueue × Bool
  | st, [] => st
  | st, u :: rest =>
      runCondSets (if u.needs st.1 then (u.apply st.1, true) else st) rest

/-- Embedding of `c.updateWithAdmissionChecks(checks)`. -/
def updateWithAdmissionChecks (fl : Flags) (c : clusterQueue)
    (checks : List (String × AdmissionCheck)) : clusterQueue :=
  let s : ACScan := c.AdmissionChecks.foldl (acScanStep checks)
    { checksPerController := [], singleInstanceControllers := [],
      multiKueueChecks := [], provisioningChecks := [], missing := [],
      inactive := [], flavorIndependentOnFlavors := [],
      perFlavorMultiKueueChecks := [] }
  let missing := sortStr s.missing
  let inactive := sortStr s.inactive
  let flavorIndependentCheckOnFlavors := sortStr s.flavorIndependentOnFlavors
  let perFlavorMultiKueueChecks := sortStr s.perFlavorMultiKueueChecks
  let multiKueueChecks := sortStr s.multiKueueChecks
  let provisioningChecks := sortStr s.provisioningChecks
  -- maps.DeleteFunc: drop controllers with < 2 checks or not single-instance;
  -- sort the remaining value slices (sorted by key: a Go map is compared
  -- key-set-wise, the association list is kept canonical).
  let checksPerController := sortAssocByKey
    ((s.checksPerController.filter
        (fun p => p.2.length ≥ 2 ∧ p.1 ∈ s.singleInstanceControllers)).map
      (fun p => (p.1, sortStr p.2)))
  -- the source's sequence of guarded assignments, in order; the two
  -- AdmissionCheckValidationRules assignments run only behind the gate.
  let updates : List CondSet :=
    [{ needs := fun x => decide (¬ x.missingAdmissionChecks = missing),
       apply := fun x => { x with missingAdmissionChecks := missing } },
     { needs := fun x => decide (¬ x.inactiveAdmissionChecks = inactive),
       apply := fun x => { x with inactiveAdmissionChecks := inactive } }] ++
    (if fl.admissionCheckValidationRules then
      [{ needs := fun x =>
           decide (¬ x.multipleSingleInstanceControllersChecks = checksPerController),
         apply := fun x =>
           { x with multipleSingleInstanceControllersChecks := checksPerController } },
       { needs := fun x =>
           decide (¬ x.flavorIndependentAdmissionCheckAppliedPerFlavor =
             flavorIndependentCheckOnFlavors),
         apply := fun x =>
           { x with flavorIndependentAdmissionCheckAppliedPerFlavor :=
               flavorIndependentCheckOnFlavors } }]
     else []) ++
    [{ needs := fun x => decide (¬ x.multiKueueAdmissionChecks = multiKueueChecks),
       apply := fun x => { x with multiKueueAdmissionChecks := multiKueueChecks } },
     { needs := fun x => decide (¬ x.provisioningAdmissionChecks = provisioningChecks),
       apply := fun x => { x with provisioningAdmissionChecks := provisioningChecks } },
     { needs := fun x =>
         decide (¬ x.perFlavorMultiKueueAdmissionChecks = perFlavorMultiKueueChecks),
       apply := fun x =>
         { x with perFlavorMultiKueueAdmissionChecks := perFlavorMultiKueueChecks } }]
  let st := runCondSets (c, false) updates
  if st.2 then updateQueueStatus fl st.1 else st.1

/- ### quotas and `updateClusterQueue` -/

/-- Embedding of `kueue.ResourceQuota` inside a flavor of a spec resource group. -/
structure KueueResourceQuota where
  name : String
  nominalQuota : Int
  borrowingLimit : Option Int
  lendingLimit : Option Int
deriving DecidableEq

/-- Embedding of `kueue.FlavorQuotas`: one flavor of a spec resource group. -/
structure KueueFlavorQuotas where
  name : String
  resources : List KueueResourceQuota
deriving DecidableEq

/-- Embedding of `kueue.ResourceGroup` of the ClusterQueue spec. -/
structure KueueResourceGroup where
  coveredResources : List String
  flavors : List KueueFlavorQuotas
deriving DecidableEq

/-- Canonical form of a Go string set built from a list: deduplicated and
sorted, so that Go's semantic set equality coincides with list equality. -/
def canonSet (l : List String) : List String := sortStr l.dedup

/-- Embedding of `createdResourceGroups(kueueRgs)`. -/
def createdResourceGroups (kueueRgs : List KueueResourceGroup) : List ResourceGroup :=
  kueueRgs.map (fun rg =>
    { CoveredResources := canonSet rg.coveredResources,
      Flavors := rg.flavors.map (fun f => f.name),
      LabelKeys := none })

/-- Modelled from the spec: `createResourceQuotas` of `resource_node.go` —
"ResourceQuota. Per (flavor, resource) triple of nominal quota, optional
borrowing limit, optional lending limit", one entry per flavor/resource of
the spec's resource groups. -/
def createResourceQuotas (kueueRgs : List KueueResourceGroup) :
    List (FlavorResource × QuotaLimits) :=
  kueueRgs.flatMap (fun rg => rg.flavors.flatMap (fun f =>
    f.resources.map (fun r =>
      ({ flavor := f.name, resource := r.name },
       { nominal := r.nominalQuota, borrowingLimit := r.borrowingLimit,
         lendingLimit := r.lendingLimit }))))

/-- Embedding of `c.updateQuotasAndResourceGroups(in)`: rewrites `ResourceGroups` and the
resource-node quotas, and reports whether anything changed (or the generation
is still 0). -/
def updateQuotasAndResourceGroups (c : clusterQueue)
    (rgsIn : List KueueResourceGroup) : clusterQueue × Bool :=
  let oldRG := c.ResourceGroups
  let oldQuotas := c.resourceNode.Quotas
  let c := { c with ResourceGroups := createdResourceGroups rgsIn,
                    resourceNode.Quotas := createResourceQuotas rgsIn }
  (c, c.AllocatableResourceGeneration = 0 ∨
      ¬ (oldRG = c.ResourceGroups) ∨ ¬ (oldQuotas = c.resourceNode.Quotas))

/-- Modelled from the spec: `updateClusterQueueResourceNode` of `cache.go` —
"if the resource shape changed, bumps `AllocatableResourceGeneration` and
triggers a bottom-up recomputation of subtree totals" (the queue has no
parent here, so only the generation bump is observable). -/
def updateClusterQueueResourceNode (c : clusterQueue) : clusterQueue :=
  { c with AllocatableResourceGeneration := c.AllocatableResourceGeneration + 1 }

/-- The parts of `kueue.ClusterQueue.Spec` that `updateClusterQueue` reads.
`admissionChecks` stands for `utilac.NewAdmissionChecks(in)` (modelled from
the spec: "Aggregates AdmissionChecks from both .spec.AdmissionChecks and
.spec.AdmissionCheckStrategy"; empty flavor list = applies to all flavors). -/
structure CQSpec where
  resourceGroups : List KueueResourceGroup
  namespaceSelector : String
  stopPolicy : Option String
  admissionChecks : List (String × List String)

/-- Embedding of `c.updateClusterQueue(in, resourceFlavors, admissionChecks, oldParent)`
for a queue with no cohort parent.  `selOk` models whether
`metav1.LabelSelectorAsSelector` succeeds; on failure the method returns the
error after the quota update, leaving the rest of the state untouched.  The
preemption / flavor-fungibility / fair-weight fields set at the end touch no
field any claim mentions and are omitted.  Returns the state and whether the
update completed without error. -/
def updateClusterQueue (fl : Flags) (c : clusterQueue) (spec : CQSpec)
    (flavors : List (String × ResourceFlavorSpec))
    (checks : List (String × AdmissionCheck)) (selOk : Bool) :
    clusterQueue × Bool :=
  let st := updateQuotasAndResourceGroups c spec.resourceGroups
  -- no parent: a changed resource shape updates this queue's node in place.
  let c := if st.2 then updateClusterQueueResourceNode st.1 else st.1
  if ¬ selOk then (c, false)
  else
    let c := { c with NamespaceSelector := spec.namespaceSelector }
    let c := { c with isStopped := ¬ (spec.stopPolicy.getD "None" = "None") }
    let c := { c with AdmissionChecks := spec.admissionChecks }
    let c := UpdateWithFlavors fl c flavors
    let c := updateWithAdmissionChecks fl c checks
    (c, true)

/- ### `inactiveReason` -/

/-- Modelled from the spec: the ClusterQueue Active-condition reason strings,
"emitted verbatim in Active condition". -/
def ReasonTerminating : String := "Terminating"

/-- Reason `Stopped`. -/
def ReasonStopped : String := "Stopped"

/-- Reason `FlavorNotFound`. -/
def ReasonFlavorNotFound : String := "FlavorNotFound"

/-- Reason `AdmissionCheckNotFound`. -/
def ReasonAdmissionCheckNotFound : String := "AdmissionCheckNotFound"

/-- Reason `AdmissionCheckInactive`. -/
def ReasonAdmissionCheckInactive : String := "AdmissionCheckInactive"

/-- Reason `MultipleMultiKueueAdmissionChecks`. -/
def ReasonMultipleMultiKueueAdmissionChecks : String := "MultipleMultiKueueAdmissionChecks"

/-- Reason `MultiKueueAdmissionCheckAppliedPerFlavor`. -/
def ReasonMultiKueueAdmissionCheckAppliedPerFlavor : String := "MultiKueueAdmissionCheckAppliedPerFlavor"

/-- Reason `MultipleSingleInstanceControllerAdmissionChecks`. -/
def ReasonMultipleSingleInstanceControllerAdmissionChecks : String := "MultipleSingleInstanceControllerAdmissionChecks"

/-- Reason `FlavorIndependentAdmissionCheckAppliedPerFlavor`. -/
def ReasonFlavorIndependentAdmissionCheckAppliedPerFlavor : String := "FlavorIndependentAdmissionCheckAppliedPerFlavor"

/-- Reason `NotSupportedWithTopologyAwareScheduling`. -/
def ReasonNotSupportedWithTopologyAwareScheduling : String := "NotSupportedWithTopologyAwareScheduling"

/-- Reason `TopologyNotFound`. -/
def ReasonTopologyNotFound : String := "TopologyNotFound"

/-- Reason `Unknown`. -/
def ReasonUnknown : String := "Unknown"

/-- Reason `Ready`. -/
def ReasonReady : String := "Ready"

/-- Go `fmt` `%v` of a string slice: `[a b c]`. -/
def goSliceV (l : List String) : String :=
  "[" ++ String.intercalate " " l ++ "]"

/-- Go `fmt` `%q` of a string (escaping ignored: the modelled names carry no
escapes). -/
def goQuoted (s : String) : String := "\"" ++ s ++ "\""

/-- Modelled from the spec: `api.TruncateConditionMessage` — the spec
specifies the message contents only, so truncation is the identity here. -/
def TruncateConditionMessage (s : String) : String := s

/-- One `reasons = append(reasons, r); messages = append(messages, msg)`
block of `inactiveReason`, guarded by its condition. -/
def appendIf (rm : List String × List String) (b : Prop) [Decidable b]
    (r m : List String) : List String × List String :=
  if b then (rm.1 ++ r, rm.2 ++ m) else rm

/-- The accumulation of `(reasons, messages)` in the `pending` branch of
`inactiveReason`, in source order. -/
def pendingReasonsMessages (fl : Flags) (c : clusterQueue) :
    List String × List String :=
  let rm : List String × List String := ([], [])
  let rm := appendIf rm c.isStopped [ReasonStopped] ["is stopped"]
  let rm := appendIf rm (¬ c.missingFlavors.isEmpty) [ReasonFlavorNotFound]
    ["references missing ResourceFlavor(s): " ++ goSliceV c.missingFlavors]
  let rm := appendIf rm (¬ c.missingAdmissionChecks.isEmpty)
    [ReasonAdmissionCheckNotFound]
    ["references missing AdmissionCheck(s): " ++ goSliceV c.missingAdmissionChecks]
  let rm := appendIf rm (¬ c.inactiveAdmissionChecks.isEmpty)
    [ReasonAdmissionCheckInactive]
    ["references inactive AdmissionCheck(s): " ++ goSliceV c.inactiveAdmissionChecks]
  let rm := appendIf rm (c.multiKueueAdmissionChecks.length > 1)
    [ReasonMultipleMultiKueueAdmissionChecks]
    ["Cannot use multiple MultiKueue AdmissionChecks on the same ClusterQueue, found: " ++ String.intercalate "," c.multiKueueAdmissionChecks]
  let rm := appendIf rm (¬ c.perFlavorMultiKueueAdmissionChecks.isEmpty)
    [ReasonMultiKueueAdmissionCheckAppliedPerFlavor]
    ["Cannot specify MultiKueue AdmissionCheck per flavor, found: " ++ String.intercalate "," c.perFlavorMultiKueueAdmissionChecks]
  let rm := appendIf rm (¬ c.multipleSingleInstanceControllersChecks.isEmpty)
    [ReasonMultipleSingleInstanceControllerAdmissionChecks]
    ((sortAssocByKey c.multipleSingleInstanceControllersChecks).map
      (fun p => "only one AdmissionCheck of " ++ goSliceV p.2 ++
        " can be referenced for controller " ++ goQuoted p.1))
  let rm := appendIf rm (¬ c.flavorIndependentAdmissionCheckAppliedPerFlavor.isEmpty)
    [ReasonFlavorIndependentAdmissionCheckAppliedPerFlavor]
    ["AdmissionCheck(s): " ++ goSliceV c.flavorIndependentAdmissionCheckAppliedPerFlavor ++ " cannot be set at flavor level"]
  if fl.topologyAwareScheduling ∧ ¬ c.tasFlavors.isEmpty then
    let rm := appendIf rm (¬ c.multiKueueAdmissionChecks.isEmpty)
      [ReasonNotSupportedWithTopologyAwareScheduling]
      ["TAS is not supported with MultiKueue admission check"]
    let rm := appendIf rm (¬ c.provisioningAdmissionChecks.isEmpty)
      [ReasonNotSupportedWithTopologyAwareScheduling]
      ["TAS is not supported with ProvisioningRequest admission check"]
    c.tasFlavors.foldl
      (fun rm p => appendIf rm (¬ c.tasCacheHas p.1) [ReasonTopologyNotFound]
        ["there is no Topology " ++ goQuoted p.2 ++ " for TAS flavor " ++ goQuoted p.1])
      rm
  else rm

/-- Embedding of `c.inactiveReason()`. -/
def inactiveReason (fl : Flags) (c : clusterQueue) : String × String :=
  match c.Status with
  | CQStatus.terminating =>
      (ReasonTerminating, "Can't admit new workloads; clusterQueue is terminating")
  | CQStatus.pending =>
      let rm := pendingReasonsMessages fl c
      match rm.1 with
      | [] => (ReasonUnknown, "Can't admit new workloads.")
      | r :: _ =>
          (r, TruncateConditionMessage
            ("Can't admit new workloads: " ++ String.intercalate ", " rm.2 ++ "."))
  | CQStatus.active => (ReasonReady, "Can admit new workloads")

/- ### local queues (`addLocalQueue`, `deleteLocalQueue`) -/

/-- Embedding of `workloadBelongsToLocalQueue(wl, q)`. -/
def workloadBelongsToLocalQueue (wl : Workload) (q : LocalQueue) : Bool :=
  wl.ns = q.ns ∧ wl.queueName = q.name

/-- Embedding of `resetUsage(lqUsage, cqUsage)`: keeps only the flavor/resources the
cluster queue knows about (at value level: the local-queue value where the
cluster queue's map has a key, 0 elsewhere; key sets are abstracted by the
support of `cqUsage`). -/
def resetUsage (lqUsage cqUsage : FlavorResourceQuantities) :
    FlavorResourceQuantities :=
  fun fr => if cqUsage fr = 0 then 0 else lqUsage fr

/-- Embedding of `q.resetFlavorsAndResources(cqUsage, cqAdmittedUsage)`. -/
def resetFlavorsAndResources (q : queue) (cqUsage cqAdmittedUsage : FlavorResourceQuantities) : queue :=
  { q with totalReserved := resetUsage q.totalReserved cqUsage,
           admittedUsage := resetUsage q.admittedUsage cqAdmittedUsage }

/-- The back-fill step of `addLocalQueue` for one known workload. -/
def addLocalQueueStep (q : LocalQueue) (qi : queue) (p : String × Workload) : queue :=
  if workloadBelongsToLocalQueue p.2 q then
    let frq := p.2.usage
    let qi := { qi with totalReserved := updateFlavorUsage frq qi.totalReserved 1,
                        reservingWorkloads := qi.reservingWorkloads + 1 }
    if p.2.admitted then
      { qi with admittedUsage := updateFlavorUsage frq qi.admittedUsage 1,
                admittedWorkloads := qi.admittedWorkloads + 1 }
    else qi
  else qi

/-- Embedding of `c.addLocalQueue(q)`: the resulting state together with the returned
error (`none` = success; on error the method returns before mutating). -/
def addLocalQueue (c : clusterQueue) (q : LocalQueue) :
    clusterQueue × Option String :=
  let qKey := queueKey q
  if (assocLookup c.localQueues qKey).isSome then
    (c, some errQueueAlreadyExists)
  else
    let qImpl : queue :=
      { key := qKey, reservingWorkloads := 0, admittedWorkloads := 0,
        totalReserved := zeroFRQ, admittedUsage := zeroFRQ }
    let qImpl := resetFlavorsAndResources qImpl c.resourceNode.Usage c.AdmittedUsage
    let qImpl := c.Workloads.foldl (addLocalQueueStep q) qImpl
    ({ c with localQueues := assocPut c.localQueues qKey qImpl }, none)

/-- Embedding of `c.deleteLocalQueue(q)`. -/
def deleteLocalQueue (c : clusterQueue) (q : LocalQueue) : clusterQueue :=
  { c with localQueues := assocErase c.localQueues (queueKey q) }

/- ### operation alphabets -/

/-- The configuration-update operations of claim C1/C9: `updateClusterQueue`,
`UpdateWithFlavors`, `updateWithAdmissionChecks`. -/
inductive CQOp where
  | update (spec : CQSpec) (flavors : List (String × ResourceFlavorSpec))
      (checks : List (String × AdmissionCheck)) (selOk : Bool)
  | withFlavors (flavors : List (String × ResourceFlavorSpec))
  | withChecks (checks : List (String × AdmissionCheck))

/-- Apply one configuration-update operation. -/
def applyCQOp (fl : Flags) (c : clusterQueue) : CQOp → clusterQueue
  | CQOp.update spec flavors checks selOk =>
      (updateClusterQueue fl c spec flavors checks selOk).1
  | CQOp.withFlavors flavors => UpdateWithFlavors fl c flavors
  | CQOp.withChecks checks => updateWithAdmissionChecks fl c checks

/-- Apply a sequence of configuration-update operations. -/
def applyCQOps (fl : Flags) (c : clusterQueue) (ops : List CQOp) : clusterQueue :=
  ops.foldl (applyCQOp fl) c

/-- The workload operations of claim C2: `addWorkload`,
`addOrUpdateWorkload`, `deleteWorkload`. -/
inductive WlOp where
  | add (w : Workload)
  | addOrUpdate (w : Workload)
  | delete (w : Workload)

/-- Apply one workload operation (a failed `addWorkload` leaves the state
untouched). -/
def applyWlOp (fl : Flags) (c : clusterQueue) : WlOp → clusterQueue
  | WlOp.add w => (addWorkload fl c w).1
  | WlOp.addOrUpdate w => addOrUpdateWorkload fl c w
  | WlOp.delete w => deleteWorkload fl c w

/-- Apply a sequence of workload operations. -/
def applyWlOps (fl : Flags) (c : clusterQueue) (ops : List WlOp) : clusterQueue :=
  ops.foldl (applyWlOp fl) c

/-- Every mutating operation `clusterqueue.go` exposes on a queue (claim C5). -/
inductive CacheOp where
  | updateCQ (spec : CQSpec) (flavors : List (String × ResourceFlavorSpec))
      (checks : List (String × AdmissionCheck)) (selOk : Bool)
  | withFlavors (flavors : List (String × ResourceFlavorSpec))
  | withChecks (checks : List (String × AdmissionCheck))
  | addWl (w : Workload)
  | addOrUpdateWl (w : Workload)
  | deleteWl (w : Workload)
  | forgetWl (w : Workload)
  | addLQ (q : LocalQueue)
  | deleteLQ (q : LocalQueue)

/-- Apply one cache operation. -/
def applyCacheOp (fl : Flags) (c : clusterQueue) : CacheOp → clusterQueue
  | CacheOp.updateCQ spec flavors checks selOk =>
      (updateClusterQueue fl c spec flavors checks selOk).1
  | CacheOp.withFlavors flavors => UpdateWithFlavors fl c flavors
  | CacheOp.withChecks checks => updateWithAdmissionChecks fl c checks
  | CacheOp.addWl w => (addWorkload fl c w).1
  | CacheOp.addOrUpdateWl w => addOrUpdateWorkload fl c w
  | CacheOp.deleteWl w => deleteWorkload fl c w
  | CacheOp.forgetWl w => forgetWorkload fl c w
  | CacheOp.addLQ q => (addLocalQueue c q).1
  | CacheOp.deleteLQ q => deleteLocalQueue c q

/-- Apply a sequence of cache operations. -/
def applyCacheOps (fl : Flags) (c : clusterQueue) (ops : List CacheOp) : clusterQueue :=
  ops.foldl (applyCacheOp fl) c

/- ### invariants and spec-side descriptions -/

/-- The fields `updateQueueStatus` reads when deciding between `active` and
`pending`. -/
def statusFields (c : clusterQueue) :
    Bool × List String × List String × List String ×
    List (String × List String) × List String × List String × List String ×
    List String × List (String × String) × (String → Bool) :=
  (c.isStopped, c.missingFlavors, c.missingAdmissionChecks,
   c.inactiveAdmissionChecks, c.multipleSingleInstanceControllersChecks,
   c.flavorIndependentAdmissionCheckAppliedPerFlavor,
   c.multiKueueAdmissionChecks, c.provisioningAdmissionChecks,
   c.perFlavorMultiKueueAdmissionChecks, c.tasFlavors, c.tasCacheHas)

/-- Claim C1's invariant: the queue is `active` exactly when no inactivity
condition holds and the status is not `terminating`. -/
def statusInv (fl : Flags) (c : clusterQueue) : Prop :=
  c.Status = CQStatus.active ↔
    (statusConditions fl c = false ∧ c.Status ≠ CQStatus.terminating)

/-- Sum of the workloads' per-flavor usage over a workload map. -/
def usageSum (l : List (String × Workload)) : FlavorResourceQuantities :=
  fun fr => (l.map (fun p => p.2.usage fr)).sum

/-- Sum of the admitted workloads' per-flavor usage over a workload map. -/
def admittedSum (l : List (String × Workload)) : FlavorResourceQuantities :=
  fun fr => (l.map (fun p => if p.2.admitted then p.2.usage fr else 0)).sum

/-- Claim C2's invariant: per-queue usage is the sum of the current
workloads' `FlavorResourceUsage`, admitted usage the sum over the admitted
ones, and the workload map is a map (no duplicated keys). -/
def usageInv (c : clusterQueue) : Prop :=
  (∀ fr, c.resourceNode.Usage fr = usageSum c.Workloads fr) ∧
  (∀ fr, c.AdmittedUsage fr = admittedSum c.Workloads fr) ∧
  (c.Workloads.map Prod.fst).Nodup

/-- A singleton cause list gated by its condition. -/
def optCause (b : Prop) [Decidable b] (s : String) : List String :=
  if b then [s] else []

/-- Spec-side description for claim C3: the applicable inactivity reason
codes, in the documented fixed order (one entry per missing topology). -/
def specApplicableReasons (fl : Flags) (c : clusterQueue) : List String :=
  optCause c.isStopped ReasonStopped ++
  optCause (¬ c.missingFlavors.isEmpty) ReasonFlavorNotFound ++
  optCause (¬ c.missingAdmissionChecks.isEmpty) ReasonAdmissionCheckNotFound ++
  optCause (¬ c.inactiveAdmissionChecks.isEmpty) ReasonAdmissionCheckInactive ++
  optCause (c.multiKueueAdmissionChecks.length > 1) ReasonMultipleMultiKueueAdmissionChecks ++
  optCause (¬ c.perFlavorMultiKueueAdmissionChecks.isEmpty) ReasonMultiKueueAdmissionCheckAppliedPerFlavor ++
  optCause (¬ c.multipleSingleInstanceControllersChecks.isEmpty) ReasonMultipleSingleInstanceControllerAdmissionChecks ++
  optCause (¬ c.flavorIndependentAdmissionCheckAppliedPerFlavor.isEmpty) ReasonFlavorIndependentAdmissionCheckAppliedPerFlavor ++
  (if fl.topologyAwareScheduling ∧ ¬ c.tasFlavors.isEmpty then
    optCause (¬ c.multiKueueAdmissionChecks.isEmpty) ReasonNotSupportedWithTopologyAwareScheduling ++
    optCause (¬ c.provisioningAdmissionChecks.isEmpty) ReasonNotSupportedWithTopologyAwareScheduling ++
    (c.tasFlavors.filter (fun p => ¬ c.tasCacheHas p.1)).map (fun _ => ReasonTopologyNotFound)
  else [])

/-- A singleton message list gated by its condition. -/
def optMsg (b : Prop) [Decidable b] (s : String) : List String :=
  if b then [s] else []

/-- Spec-side description for claim C3: the applicable cause messages, in the
documented fixed order. -/
def specApplicableMessages (fl : Flags) (c : clusterQueue) : List String :=
  optMsg c.isStopped "is stopped" ++
  optMsg (¬ c.missingFlavors.isEmpty)
    ("references missing ResourceFlavor(s): " ++ goSliceV c.missingFlavors) ++
  optMsg (¬ c.missingAdmissionChecks.isEmpty)
    ("references missing AdmissionCheck(s): " ++ goSliceV c.missingAdmissionChecks) ++
  optMsg (¬ c.inactiveAdmissionChecks.isEmpty)
    ("references inactive AdmissionCheck(s): " ++ goSliceV c.inactiveAdmissionChecks) ++
  optMsg (c.multiKueueAdmissionChecks.length > 1)
    ("Cannot use multiple MultiKueue AdmissionChecks on the same ClusterQueue, found: " ++ String.intercalate "," c.multiKueueAdmissionChecks) ++
  optMsg (¬ c.perFlavorMultiKueueAdmissionChecks.isEmpty)
    ("Cannot specify MultiKueue AdmissionCheck per flavor, found: " ++ String.intercalate "," c.perFlavorMultiKueueAdmissionChecks) ++
  (if ¬ c.multipleSingleInstanceControllersChecks.isEmpty then
    (sortAssocByKey c.multipleSingleInstanceControllersChecks).map
      (fun p => "only one AdmissionCheck of " ++ goSliceV p.2 ++
        " can be referenced for controller " ++ goQuoted p.1)
  else []) ++
  optMsg (¬ c.flavorIndependentAdmissionCheckAppliedPerFlavor.isEmpty)
    ("AdmissionCheck(s): " ++ goSliceV c.flavorIndependentAdmissionCheckAppliedPerFlavor ++ " cannot be set at flavor level") ++
  (if fl.topologyAwareScheduling ∧ ¬ c.tasFlavors.isEmpty then
    optMsg (¬ c.multiKueueAdmissionChecks.isEmpty)
      "TAS is not supported with MultiKueue admission check" ++
    optMsg (¬ c.provisioningAdmissionChecks.isEmpty)
      "TAS is not supported with ProvisioningRequest admission check" ++
    (c.tasFlavors.filter (fun p => ¬ c.tasCacheHas p.1)).map
      (fun p => "there is no Topology " ++ goQuoted p.2 ++ " for TAS flavor " ++ goQuoted p.1)
  else [])

/-- The enumerated reason codes of the Active condition. -/
def reasonEnum : List String :=
  [ReasonReady, ReasonTerminating, ReasonStopped, ReasonFlavorNotFound,
   ReasonAdmissionCheckNotFound, ReasonAdmissionCheckInactive,
   ReasonMultipleMultiKueueAdmissionChecks,
   ReasonMultiKueueAdmissionCheckAppliedPerFlavor,
   ReasonMultipleSingleInstanceControllerAdmissionChecks,
   ReasonFlavorIndependentAdmissionCheckAppliedPerFlavor,
   ReasonNotSupportedWithTopologyAwareScheduling, ReasonTopologyNotFound,
   ReasonUnknown]

/- ### concrete fixtures used by witnesses and counterexamples -/

/-- All feature gates off. -/
def fl0 : Flags :=
  { topologyAwareScheduling := false, admissionCheckValidationRules := false }

/-- A concrete flavor/resource pair. -/
def fr0 : FlavorResource := { flavor := "default", resource := "cpu" }

/-- A quantity map holding `n` units of `fr0`. -/
def frq (n : Int) : FlavorResourceQuantities :=
  fun fr => if fr = fr0 then n else 0

/-- A concrete admitted workload using 3 cpus of the default flavor. -/
def w0 : Workload :=
  { ns := "ns1", name := "wl1", queueName := "lq1", admitted := true,
    podsReady := true, usage := frq 3, usesTAS := false }

/-- Like `w0` but with a different usage (a stale cached copy). -/
def w0small : Workload :=
  { ns := "ns1", name := "wl1", queueName := "lq1", admitted := true,
    podsReady := true, usage := frq 1, usesTAS := false }

/-- A freshly-zeroed cluster queue. -/
def emptyCQ : clusterQueue :=
  { Name := "cq", ResourceGroups := [], Workloads := [],
    WorkloadsNotReady := [], NamespaceSelector := "", AdmissionChecks := [],
    Status := CQStatus.pending, AllocatableResourceGeneration := 0,
    AdmittedUsage := zeroFRQ, localQueues := [], podsReadyTracking := false,
    missingFlavors := [], missingAdmissionChecks := [],
    inactiveAdmissionChecks := [],
    multipleSingleInstanceControllersChecks := [],
    flavorIndependentAdmissionCheckAppliedPerFlavor := [],
    multiKueueAdmissionChecks := [], provisioningAdmissionChecks := [],
    perFlavorMultiKueueAdmissionChecks := [], tasFlavors := [],
    admittedWorkloadsCount := 0, isStopped := false,
    resourceNode := { Quotas := [], Usage := zeroFRQ },
    tasCacheHas := fun _ => false, workloadsNotAccountedForTAS := [] }

/-- Embedding of `emptyCQ` with a consistent `active` status. -/
def activeCQ : clusterQueue := { emptyCQ with Status := CQStatus.active }

/-- A queue holding exactly `w0`, with consistent usage accounting. -/
def cqWithW0 : clusterQueue :=
  { activeCQ with
    Workloads := [(wlKey w0, w0)]
    AdmittedUsage := frq 3
    resourceNode := { Quotas := [], Usage := frq 3 }
    admittedWorkloadsCount := 1 }

/-- A concrete local queue matching `w0`. -/
def lq1 : LocalQueue := { ns := "ns1", name := "lq1" }

/-- A registered (empty) local-queue record for `lq1`. -/
def lqQueue0 : queue :=
  { key := queueKey lq1, reservingWorkloads := 0, admittedWorkloads := 0,
    totalReserved := zeroFRQ, admittedUsage := zeroFRQ }

/-- Embedding of `activeCQ` with `lq1` registered. -/
def cqWithLQ : clusterQueue :=
  { activeCQ with localQueues := [(queueKey lq1, lqQueue0)] }

/-- Embedding of `emptyCQ` marked terminating. -/
def terminatingCQ : clusterQueue := { emptyCQ with Status := CQStatus.terminating }

/-- A pending queue with one missing flavor recorded. -/
def pendingMissingCQ : clusterQueue := { emptyCQ with missingFlavors := ["x86"] }

/-- A one-group / one-flavor / one-resource ClusterQueue spec. -/
def spec0 : CQSpec :=
  { resourceGroups :=
      [{ coveredResources := ["cpu"],
         flavors := [{ name := "default",
                       resources := [{ name := "cpu", nominalQuota := 10,
                                       borrowingLimit := none,
                                       lendingLimit := none }] }] }],
    namespaceSelector := "", stopPolicy := none, admissionChecks := [] }

/-!  ## Lemmas  -/

theorem queue.ext (a b : queue) (h1 : a.key = b.key)
    (h2 : a.reservingWorkloads = b.reservingWorkloads)
    (h3 : a.admittedWorkloads = b.admittedWorkloads)
    (h4 : a.totalReserved = b.totalReserved)
    (h5 : a.admittedUsage = b.admittedUsage) : a = b := by
  cases a; cases b; simp_all

theorem assocLookup_nil {α : Type} (k : String) :
    assocLookup ([] : List (String × α)) k = none := rfl

theorem assocLookup_cons {α : Type} (p : String × α) (l : List (String × α))
    (k : String) :
    assocLookup (p :: l) k = if p.1 = k then some p.2 else assocLookup l k := by
  by_cases h : p.1 = k <;>
    simp [assocLookup, List.find?_cons_of_pos, List.find?_cons_of_neg, h]

theorem assocLookup_eq_none_of_not_mem {α : Type} {l : List (String × α)}
    {k : String} (h : k ∉ l.map Prod.fst) : assocLookup l k = none := by
  rw [assocLookup, Option.map_eq_none', List.find?_eq_none]
  intro p hp
  simp only [decide_eq_true_eq]
  intro hk
  exact h (List.mem_map.mpr ⟨p, hp, hk⟩)

theorem assocErase_of_lookup_none {α : Type} {l : List (String × α)}
    {k : String} (h : assocLookup l k = none) : assocErase l k = l := by
  rw [assocErase, List.filter_eq_self]
  rw [assocLookup, Option.map_eq_none', List.find?_eq_none] at h
  intro p hp
  simpa using h p hp

theorem assocLookup_put_self {α : Type} (l : List (String × α)) (k : String)
    (v : α) : assocLookup (assocPut l k v) k = some v := by
  simp [assocPut, assocLookup, List.find?_cons_of_pos]

theorem nodup_keys_erase {α : Type} {l : List (String × α)} (k : String)
    (h : (l.map Prod.fst).Nodup) : ((assocErase l k).map Prod.fst).Nodup :=
  ((List.filter_sublist l).map Prod.fst).nodup h

theorem nodup_keys_put {α : Type} {l : List (String × α)} (k : String) (v : α)
    (h : (l.map Prod.fst).Nodup) : ((assocPut l k v).map Prod.fst).Nodup := by
  rw [assocPut, List.map_cons, List.nodup_cons]
  constructor
  · intro hmem
    obtain ⟨p, hp, hk⟩ := List.mem_map.mp hmem
    have := (List.mem_filter.mp hp).2
    simp only [decide_eq_true_eq] at this
    exact this hk
  · exact nodup_keys_erase k h

theorem usageSum_nil (fr : FlavorResource) : usageSum [] fr = 0 := rfl

theorem usageSum_cons (p : String × Workload) (l : List (String × Workload))
    (fr : FlavorResource) :
    usageSum (p :: l) fr = p.2.usage fr + usageSum l fr := by
  simp [usageSum]

theorem admittedSum_cons (p : String × Workload) (l : List (String × Workload))
    (fr : FlavorResource) :
    admittedSum (p :: l) fr =
      (if p.2.admitted then p.2.usage fr else 0) + admittedSum l fr := by
  simp [admittedSum]

theorem usageSum_erase {l : List (String × Workload)} {k : String}
    {wi : Workload} (hnd : (l.map Prod.fst).Nodup)
    (h : assocLookup l k = some wi) (fr : FlavorResource) :
    usageSum (assocErase l k) fr = usageSum l fr - wi.usage fr := by
  induction l with
  | nil => simp [assocLookup] at h
  | cons p t ih =>
    rw [assocLookup_cons] at h
    rw [List.map_cons, List.nodup_cons] at hnd
    by_cases hk : p.1 = k
    · rw [if_pos hk] at h
      obtain rfl : p.2 = wi := by injection h
      have ht : assocLookup t k = none :=
        assocLookup_eq_none_of_not_mem (by rw [← hk]; exact hnd.1)
      show usageSum (List.filter _ (p :: t)) fr = _
      rw [List.filter_cons_of_neg (by simpa using hk)]
      rw [show List.filter _ t = assocErase t k from rfl,
        assocErase_of_lookup_none ht, usageSum_cons]
      ring
    · rw [if_neg hk] at h
      show usageSum (List.filter _ (p :: t)) fr = _
      rw [List.filter_cons_of_pos (by simpa using hk)]
      rw [usageSum_cons, show List.filter _ t = assocErase t k from rfl,
        ih hnd.2 h, usageSum_cons]
      ring

theorem admittedSum_erase {l : List (String × Workload)} {k : String}
    {wi : Workload} (hnd : (l.map Prod.fst).Nodup)
    (h : assocLookup l k = some wi) (fr : FlavorResource) :
    admittedSum (assocErase l k) fr =
      admittedSum l fr - (if wi.admitted then wi.usage fr else 0) := by
  induction l with
  | nil => simp [assocLookup] at h
  | cons p t ih =>
    rw [assocLookup_cons] at h
    rw [List.map_cons, List.nodup_cons] at hnd
    by_cases hk : p.1 = k
    · rw [if_pos hk] at h
      obtain rfl : p.2 = wi := by injection h
      have ht : assocLookup t k = none :=
        assocLookup_eq_none_of_not_mem (by rw [← hk]; exact hnd.1)
      show admittedSum (List.filter _ (p :: t)) fr = _
      rw [List.filter_cons_of_neg (by simpa using hk)]
      rw [show List.filter _ t = assocErase t k from rfl,
        assocErase_of_lookup_none ht, admittedSum_cons]
      ring
    · rw [if_neg hk] at h
      show admittedSum (List.filter _ (p :: t)) fr = _
      rw [List.filter_cons_of_pos (by simpa using hk)]
      rw [admittedSum_cons, show List.filter _ t = assocErase t k from rfl,
        ih hnd.2 h, admittedSum_cons]
      ring

theorem usageSum_put (l : List (String × Workload)) (k : String) (w : Workload)
    (fr : FlavorResource) :
    usageSum (assocPut l k w) fr = w.usage fr + usageSum (assocErase l k) fr := by
  rw [assocPut, usageSum_cons]; rfl

theorem admittedSum_put (l : List (String × Workload)) (k : String)
    (w : Workload) (fr : FlavorResource) :
    admittedSum (assocPut l k w) fr =
      (if w.admitted then w.usage fr else 0) + admittedSum (assocErase l k) fr := by
  rw [assocPut, admittedSum_cons]; rfl

theorem updateFlavorUsage_cancel (u old : FlavorResourceQuantities) :
    updateFlavorUsage u (updateFlavorUsage u old 1) (-1) = old := by
  funext fr; simp [updateFlavorUsage]

theorem removeUsage_addUsage (u v : FlavorResourceQuantities) :
    removeUsage (addUsage u v) v = u := by
  funext fr; simp [removeUsage, addUsage]

theorem updateWorkloadTASUsage_shape (fl : Flags) (c : clusterQueue)
    (wi : Workload) (m : Int) :
    ∃ s, updateWorkloadTASUsage fl c wi m =
      { c with workloadsNotAccountedForTAS := s } := by
  unfold updateWorkloadTASUsage
  split
  · exact ⟨c.workloadsNotAccountedForTAS, rfl⟩
  · split <;> exact ⟨_, rfl⟩

theorem updateWorkloadUsage_shape (fl : Flags) (c : clusterQueue)
    (wi : Workload) (m : Int) :
    ∃ s, updateWorkloadUsage fl c wi m =
      { c with
        resourceNode.Usage :=
          (if m = 1 then addUsage c.resourceNode.Usage wi.usage
           else if m = -1 then removeUsage c.resourceNode.Usage wi.usage
           else c.resourceNode.Usage)
        AdmittedUsage :=
          (if wi.admitted then updateFlavorUsage wi.usage c.AdmittedUsage m
           else c.AdmittedUsage)
        admittedWorkloadsCount :=
          (if wi.admitted then c.admittedWorkloadsCount + m
           else c.admittedWorkloadsCount)
        workloadsNotAccountedForTAS := s
        localQueues :=
          (match assocLookup c.localQueues (wlQueueKey wi) with
           | some _ => assocUpdate c.localQueues (wlQueueKey wi)
               (fun lq => updateLocalQueueUsage lq wi.usage wi.admitted m)
           | none => c.localQueues) } := by
  unfold updateWorkloadUsage
  obtain ⟨s, hs⟩ := updateWorkloadTASUsage_shape fl
    { c with resourceNode.Usage :=
        (if m = 1 then addUsage c.resourceNode.Usage wi.usage
         else if m = -1 then removeUsage c.resourceNode.Usage wi.usage
         else c.resourceNode.Usage) } wi m
  dsimp only
  rw [hs]
  refine ⟨s, ?_⟩
  cases ha : wi.admitted <;> simp only [ha] <;>
    cases hl : assocLookup c.localQueues (wlQueueKey wi) <;>
      simp [hl]

theorem assocLookup_erase_self {α : Type} (l : List (String × α)) (k : String) :
    assocLookup (assocErase l k) k = none := by
  rw [assocLookup, Option.map_eq_none', List.find?_eq_none]
  intro p hp
  have := (List.mem_filter.mp hp).2
  simpa using this

theorem deleteWorkload_eq_of_none {fl : Flags} {c : clusterQueue} {w : Workload}
    (h : assocLookup c.Workloads (wlKey w) = none) : deleteWorkload fl c w = c := by
  unfold deleteWorkload
  dsimp only
  rw [h]

theorem deleteWorkload_shape (fl : Flags) {c : clusterQueue} {w : Workload}
    {wi : Workload} (h : assocLookup c.Workloads (wlKey w) = some wi) :
    ∃ wnr s,
    deleteWorkload fl c w =
      { c with
        Workloads := assocErase c.Workloads (wlKey w)
        WorkloadsNotReady := wnr
        AllocatableResourceGeneration := c.AllocatableResourceGeneration + 1
        resourceNode.Usage := removeUsage c.resourceNode.Usage wi.usage
        AdmittedUsage :=
          (if wi.admitted then updateFlavorUsage wi.usage c.AdmittedUsage (-1)
           else c.AdmittedUsage)
        admittedWorkloadsCount :=
          (if wi.admitted then c.admittedWorkloadsCount + (-1)
           else c.admittedWorkloadsCount)
        workloadsNotAccountedForTAS := s
        localQueues :=
          (match assocLookup c.localQueues (wlQueueKey wi) with
           | some _ => assocUpdate c.localQueues (wlQueueKey wi)
               (fun lq => updateLocalQueueUsage lq wi.usage wi.admitted (-1))
           | none => c.localQueues) } := by
  unfold deleteWorkload
  dsimp only
  rw [h]
  obtain ⟨s, hs⟩ := updateWorkloadUsage_shape fl c wi (-1)
  dsimp only
  rw [hs]
  dsimp only
  by_cases hp : c.podsReadyTracking = true ∧ w.podsReady = false
  · exact ⟨listErase c.WorkloadsNotReady (wlKey w), s, by simp [hp]⟩
  · exact ⟨c.WorkloadsNotReady, s, by simp [hp]⟩

theorem deleteWorkload_lookup_self (fl : Flags) (c : clusterQueue) (w : Workload) :
    assocLookup (deleteWorkload fl c w).Workloads (wlKey w) = none := by
  cases h : assocLookup c.Workloads (wlKey w) with
  | none => rw [deleteWorkload_eq_of_none h]; exact h
  | some wi =>
      obtain ⟨wnr, s, hs⟩ := deleteWorkload_shape fl h
      rw [hs]
      exact assocLookup_erase_self _ _

theorem addOrUpdateWorkload_shape_of_none (fl : Flags) {c : clusterQueue}
    {w : Workload} (h : assocLookup c.Workloads (wlKey w) = none) :
    ∃ wnr s,
    addOrUpdateWorkload fl c w =
      { c with
        Workloads := assocPut c.Workloads (wlKey w) w
        WorkloadsNotReady := wnr
        resourceNode.Usage := addUsage c.resourceNode.Usage w.usage
        AdmittedUsage :=
          (if w.admitted then updateFlavorUsage w.usage c.AdmittedUsage 1
           else c.AdmittedUsage)
        admittedWorkloadsCount :=
          (if w.admitted then c.admittedWorkloadsCount + 1
           else c.admittedWorkloadsCount)
        workloadsNotAccountedForTAS := s
        localQueues :=
          (match assocLookup c.localQueues (wlQueueKey w) with
           | some _ => assocUpdate c.localQueues (wlQueueKey w)
               (fun lq => updateLocalQueueUsage lq w.usage w.admitted 1)
           | none => c.localQueues) } := by
  unfold addOrUpdateWorkload
  dsimp only
  rw [h]
  obtain ⟨s, hs⟩ :=
    updateWorkloadUsage_shape fl
      { c with Workloads := assocPut c.Workloads (wlKey w) w } w 1
  simp only [Option.isSome_none, Bool.false_eq_true, if_false]
  rw [hs]
  dsimp only
  by_cases hp : c.podsReadyTracking = true ∧ w.podsReady = false
  · exact ⟨listInsert c.WorkloadsNotReady (wlKey w), s, by simp [hp]⟩
  · exact ⟨c.WorkloadsNotReady, s, by simp [hp]⟩

theorem addOrUpdateWorkload_eq_of_present {fl : Flags} {c : clusterQueue}
    {w : Workload} (h : (assocLookup c.Workloads (wlKey w)).isSome = true) :
    addOrUpdateWorkload fl c w = addOrUpdateWorkload fl (deleteWorkload fl c w) w := by
  conv_lhs => rw [addOrUpdateWorkload]
  conv_rhs => rw [addOrUpdateWorkload]
  rw [if_pos h, deleteWorkload_lookup_self]
  simp

theorem assocUpdate_update {α : Type} (l : List (String × α)) (k : String)
    (f g : α → α) :
    assocUpdate (assocUpdate l k f) k g = assocUpdate l k (fun x => g (f x)) := by
  rw [assocUpdate, assocUpdate, assocUpdate, List.map_map]
  congr 1
  funext p
  by_cases h : p.1 = k <;> simp [h]

theorem assocUpdate_id {α : Type} (l : List (String × α)) (k : String) :
    assocUpdate l k (fun x => x) = l := by
  rw [assocUpdate]
  conv_rhs => rw [← List.map_id l]
  congr 1
  funext p
  by_cases h : p.1 = k
  · rw [if_pos h]
    rfl
  · rw [if_neg h]
    rfl

theorem assocLookup_update {α : Type} (l : List (String × α)) (k : String)
    (f : α → α) :
    assocLookup (assocUpdate l k f) k = (assocLookup l k).map f := by
  induction l with
  | nil => rfl
  | cons p t ih =>
    by_cases h : p.1 = k
    · simp [assocUpdate, assocLookup_cons, h]
    · simpa [assocUpdate, assocLookup_cons, h] using ih

theorem updateLocalQueueUsage_cancel (lq : queue)
    (u : FlavorResourceQuantities) (adm : Bool) :
    updateLocalQueueUsage (updateLocalQueueUsage lq u adm 1) u adm (-1) = lq := by
  cases adm <;>
    refine queue.ext _ _ rfl ?_ ?_ ?_ ?_ <;>
      simp [updateLocalQueueUsage, updateFlavorUsage_cancel]

theorem usageInv_deleteWorkload {fl : Flags} {c : clusterQueue} {w : Workload}
    (h : usageInv c) : usageInv (deleteWorkload fl c w) := by
  cases hl : assocLookup c.Workloads (wlKey w) with
  | none => rw [deleteWorkload_eq_of_none hl]; exact h
  | some wi =>
    obtain ⟨hu, ha, hnd⟩ := h
    obtain ⟨wnr, s, hs⟩ := deleteWorkload_shape fl hl
    rw [hs]
    refine ⟨?_, ?_, nodup_keys_erase _ hnd⟩
    · intro fr
      show removeUsage c.resourceNode.Usage wi.usage fr = _
      rw [usageSum_erase hnd hl, removeUsage, hu fr]
    · intro fr
      show (if wi.admitted = true then
          updateFlavorUsage wi.usage c.AdmittedUsage (-1) else c.AdmittedUsage) fr = _
      rw [admittedSum_erase hnd hl]
      cases hadm : wi.admitted <;>
        simp [updateFlavorUsage, ha fr, hadm] <;> ring

theorem usageInv_addOrUpdate_of_none {fl : Flags} {c : clusterQueue}
    {w : Workload} (h : usageInv c)
    (hl : assocLookup c.Workloads (wlKey w) = none) :
    usageInv (addOrUpdateWorkload fl c w) := by
  obtain ⟨hu, ha, hnd⟩ := h
  obtain ⟨wnr, s, hs⟩ := addOrUpdateWorkload_shape_of_none fl hl
  rw [hs]
  refine ⟨?_, ?_, nodup_keys_put _ _ hnd⟩
  · intro fr
    show addUsage c.resourceNode.Usage w.usage fr = _
    rw [usageSum_put, assocErase_of_lookup_none hl, addUsage, hu fr]
    ring
  · intro fr
    show (if w.admitted = true then
        updateFlavorUsage w.usage c.AdmittedUsage 1 else c.AdmittedUsage) fr = _
    rw [admittedSum_put, assocErase_of_lookup_none hl]
    cases hadm : w.admitted <;>
      simp [updateFlavorUsage, ha fr, hadm] <;> ring

theorem usageInv_addOrUpdateWorkload {fl : Flags} {c : clusterQueue}
    {w : Workload} (h : usageInv c) : usageInv (addOrUpdateWorkload fl c w) := by
  cases hl : assocLookup c.Workloads (wlKey w) with
  | none => exact usageInv_addOrUpdate_of_none h hl
  | some wi =>
    rw [addOrUpdateWorkload_eq_of_present (by rw [hl]; rfl)]
    exact usageInv_addOrUpdate_of_none (usageInv_deleteWorkload h)
      (deleteWorkload_lookup_self fl c w)

theorem usageInv_addWorkload {fl : Flags} {c : clusterQueue} {w : Workload}
    (h : usageInv c) : usageInv (addWorkload fl c w).1 := by
  unfold addWorkload
  split
  · exact h
  · exact usageInv_addOrUpdateWorkload h

/-- C2: for every finite sequence of addWorkload / addOrUpdateWorkload /
deleteWorkload operations, the queue's `resourceNode.Usage` is the sum of the
current workloads' `FlavorResourceUsage`, and `AdmittedUsage` the same sum
restricted to admitted workloads, each workload counted exactly once. -/
theorem claim_C2_usage_invariant (fl : Flags) (c : clusterQueue)
    (ops : List WlOp) (h : usageInv c) : usageInv (applyWlOps fl c ops) := by
  induction ops generalizing c with
  | nil => exact h
  | cons op t ih =>
    refine ih (applyWlOp fl c op) ?_
    cases op with
    | add w => exact usageInv_addWorkload h
    | addOrUpdate w => exact usageInv_addOrUpdateWorkload h
    | delete w => exact usageInv_deleteWorkload h

/-- Witness for C2 at a concrete queue and operation sequence. -/
theorem claim_C2_usage_invariant_witness :
    usageInv emptyCQ ∧
    usageInv (applyWlOps fl0 emptyCQ
      [WlOp.add w0, WlOp.addOrUpdate w0small, WlOp.delete w0]) :=
  ⟨⟨fun _ => rfl, fun _ => rfl, List.nodup_nil⟩,
   claim_C2_usage_invariant fl0 emptyCQ _
     ⟨fun _ => rfl, fun _ => rfl, List.nodup_nil⟩⟩

/-- C4: adding a not-yet-present workload and then deleting it restores
`resourceNode.Usage`, `AdmittedUsage` and the whole local-queue table
(hence every local queue's `totalReserved` and `admittedUsage`). -/
theorem claim_C4_add_delete_roundtrip (fl : Flags) (c : clusterQueue)
    (w : Workload) (h : assocLookup c.Workloads (wlKey w) = none) :
    (deleteWorkload fl (addOrUpdateWorkload fl c w) w).resourceNode.Usage =
      c.resourceNode.Usage ∧
    (deleteWorkload fl (addOrUpdateWorkload fl c w) w).AdmittedUsage =
      c.AdmittedUsage ∧
    (deleteWorkload fl (addOrUpdateWorkload fl c w) w).localQueues =
      c.localQueues := by
  obtain ⟨wnr, s, hs⟩ := addOrUpdateWorkload_shape_of_none fl h
  have hA : assocLookup (addOrUpdateWorkload fl c w).Workloads (wlKey w) = some w := by
    rw [hs]; exact assocLookup_put_self _ _ _
  obtain ⟨wnr2, s2, hs2⟩ := deleteWorkload_shape fl hA
  rw [hs2, hs]
  refine ⟨?_, ?_, ?_⟩
  · show removeUsage (addUsage c.resourceNode.Usage w.usage) w.usage = _
    exact removeUsage_addUsage _ _
  · show (if w.admitted = true then
        updateFlavorUsage w.usage
          (if w.admitted = true then updateFlavorUsage w.usage c.AdmittedUsage 1
           else c.AdmittedUsage) (-1)
      else
        (if w.admitted = true then updateFlavorUsage w.usage c.AdmittedUsage 1
         else c.AdmittedUsage)) = c.AdmittedUsage
    cases hadm : w.admitted <;> simp [updateFlavorUsage_cancel]
  · cases hq : assocLookup c.localQueues (wlQueueKey w) with
    | none => simp only [hq]
    | some lq =>
      simp only [hq]
      show (match assocLookup (assocUpdate c.localQueues (wlQueueKey w)
              (fun lq => updateLocalQueueUsage lq w.usage w.admitted 1)) (wlQueueKey w) with
            | some _ => assocUpdate (assocUpdate c.localQueues (wlQueueKey w)
                (fun lq => updateLocalQueueUsage lq w.usage w.admitted 1)) (wlQueueKey w)
                (fun lq => updateLocalQueueUsage lq w.usage w.admitted (-1))
            | none => assocUpdate c.localQueues (wlQueueKey w)
                (fun lq => updateLocalQueueUsage lq w.usage w.admitted 1)) = c.localQueues
      rw [assocLookup_update, hq]
      show assocUpdate (assocUpdate _ _ _) _ _ = _
      rw [assocUpdate_update]
      have : (fun x => updateLocalQueueUsage
          (updateLocalQueueUsage x w.usage w.admitted 1) w.usage w.admitted (-1)) =
          (fun x : queue => x) := by
        funext x; exact updateLocalQueueUsage_cancel x w.usage w.admitted
      rw [this, assocUpdate_id]

/-- Witness for C4 at a concrete queue (with a registered local queue) and
workload. -/
theorem claim_C4_add_delete_roundtrip_witness :
    assocLookup cqWithLQ.Workloads (wlKey w0) = none ∧
    ((deleteWorkload fl0 (addOrUpdateWorkload fl0 cqWithLQ w0) w0).resourceNode.Usage =
        cqWithLQ.resourceNode.Usage ∧
     (deleteWorkload fl0 (addOrUpdateWorkload fl0 cqWithLQ w0) w0).AdmittedUsage =
        cqWithLQ.AdmittedUsage ∧
     (deleteWorkload fl0 (addOrUpdateWorkload fl0 cqWithLQ w0) w0).localQueues =
        cqWithLQ.localQueues) :=
  ⟨rfl, claim_C4_add_delete_roundtrip fl0 cqWithLQ w0 rfl⟩

/-- C6 (counterexample): `addWorkload` rejects a workload that is present
under its own (the only possible) key — there is no distinct-key duplicate in
the queue, yet the call errors instead of upserting. -/
theorem claim_C6_counterexample :
    cqWithW0.Workloads.map Prod.fst = [wlKey w0] ∧
    addWorkload fl0 cqWithW0 w0 = (cqWithW0, some errWorkloadAlreadyExists) :=
  ⟨rfl, rfl⟩

/-- C6 (amended): `addWorkload` errors iff a workload with the same key is
already present and otherwise inserts, incrementing usage by the workload's
`FlavorResourceUsage` exactly once; `addOrUpdateWorkload` never double-counts
an updated workload — on an existing key it first removes the stored
workload's usage. -/
theorem claim_C6_add_semantics (fl : Flags) (c : clusterQueue) (w : Workload) :
    ((assocLookup c.Workloads (wlKey w)).isSome = true →
      addWorkload fl c w = (c, some errWorkloadAlreadyExists)) ∧
    (assocLookup c.Workloads (wlKey w) = none →
      (addWorkload fl c w).2 = none ∧
      (addWorkload fl c w).1 = addOrUpdateWorkload fl c w ∧
      ∀ fr, (addWorkload fl c w).1.resourceNode.Usage fr =
        c.resourceNode.Usage fr + w.usage fr) ∧
    (∀ wi, assocLookup c.Workloads (wlKey w) = some wi →
      ∀ fr, (addOrUpdateWorkload fl c w).resourceNode.Usage fr =
        c.resourceNode.Usage fr - wi.usage fr + w.usage fr) := by
  refine ⟨?_, ?_, ?_⟩
  · intro h
    unfold addWorkload
    rw [if_pos h]
  · intro h
    have hneg : ¬ (assocLookup c.Workloads (wlKey w)).isSome = true := by
      simp [h]
    unfold addWorkload
    rw [if_neg hneg]
    obtain ⟨wnr, s, hs⟩ := addOrUpdateWorkload_shape_of_none fl h
    exact ⟨rfl, rfl, fun fr => by rw [hs]; rfl⟩
  · intro wi h fr
    rw [addOrUpdateWorkload_eq_of_present (by rw [h]; rfl)]
    obtain ⟨wnr, s, hs⟩ := deleteWorkload_shape fl h
    obtain ⟨wnr2, s2, hs2⟩ :=
      addOrUpdateWorkload_shape_of_none fl
        (deleteWorkload_lookup_self fl c w)
    rw [hs2]
    show addUsage (deleteWorkload fl c w).resourceNode.Usage w.usage fr = _
    rw [hs]
    show c.resourceNode.Usage fr - wi.usage fr + w.usage fr = _
    rfl

/-- Witness for the amended C6 at concrete inputs. -/
theorem claim_C6_add_semantics_witness :
    addWorkload fl0 cqWithW0 w0 = (cqWithW0, some errWorkloadAlreadyExists) ∧
    ((addWorkload fl0 emptyCQ w0).2 = none ∧
     (addWorkload fl0 emptyCQ w0).1 = addOrUpdateWorkload fl0 emptyCQ w0) ∧
    (addWorkload fl0 emptyCQ w0).1.resourceNode.Usage fr0 =
      emptyCQ.resourceNode.Usage fr0 + w0.usage fr0 ∧
    (addOrUpdateWorkload fl0 cqWithW0 w0small).resourceNode.Usage fr0 =
      cqWithW0.resourceNode.Usage fr0 - w0.usage fr0 + w0small.usage fr0 :=
  ⟨(claim_C6_add_semantics fl0 cqWithW0 w0).1 rfl,
   ⟨((claim_C6_add_semantics fl0 emptyCQ w0).2.1 rfl).1,
    ((claim_C6_add_semantics fl0 emptyCQ w0).2.1 rfl).2.1⟩,
   ((claim_C6_add_semantics fl0 emptyCQ w0).2.1 rfl).2.2 fr0,
   (claim_C6_add_semantics fl0 cqWithW0 w0small).2.2 w0 rfl fr0⟩

/-- C7 (counterexample): `deleteWorkload` at the key of a stored workload
with different (stale) usage decrements by the STORED info's usage, not the
argument's; here the stored copy holds 3 cpus, the argument 1, and usage
drops from 3 to 0, not to 2. -/
theorem claim_C7_counterexample :
    assocLookup cqWithW0.Workloads (wlKey w0small) = some w0 ∧
    (deleteWorkload fl0 cqWithW0 w0small).resourceNode.Usage fr0 = 0 ∧
    cqWithW0.resourceNode.Usage fr0 - w0small.usage fr0 = 2 :=
  ⟨rfl, rfl, rfl⟩

/-- C7 (amended): when the workload's key is present, `deleteWorkload`
decrements per-flavor usage by the stored workload info's
`FlavorResourceUsage`, bumps `AllocatableResourceGeneration` by one and
removes the key from `Workloads`; when absent it is a no-op. -/
theorem claim_C7_delete_semantics (fl : Flags) (c : clusterQueue) (w : Workload) :
    (∀ wi, assocLookup c.Workloads (wlKey w) = some wi →
      (deleteWorkload fl c w).resourceNode.Usage =
        removeUsage c.resourceNode.Usage wi.usage ∧
      (deleteWorkload fl c w).AllocatableResourceGeneration =
        c.AllocatableResourceGeneration + 1 ∧
      (deleteWorkload fl c w).Workloads = assocErase c.Workloads (wlKey w) ∧
      assocLookup (deleteWorkload fl c w).Workloads (wlKey w) = none) ∧
    (assocLookup c.Workloads (wlKey w) = none → deleteWorkload fl c w = c) := by
  constructor
  · intro wi h
    obtain ⟨wnr, s, hs⟩ := deleteWorkload_shape fl h
    rw [hs]
    exact ⟨rfl, rfl, rfl, assocLookup_erase_self _ _⟩
  · exact fun h => deleteWorkload_eq_of_none h

/-- Witness for the amended C7 at concrete inputs. -/
theorem claim_C7_delete_semantics_witness :
    ((deleteWorkload fl0 cqWithW0 w0).resourceNode.Usage =
        removeUsage cqWithW0.resourceNode.Usage w0.usage ∧
     (deleteWorkload fl0 cqWithW0 w0).AllocatableResourceGeneration =
        cqWithW0.AllocatableResourceGeneration + 1 ∧
     (deleteWorkload fl0 cqWithW0 w0).Workloads =
        assocErase cqWithW0.Workloads (wlKey w0) ∧
     assocLookup (deleteWorkload fl0 cqWithW0 w0).Workloads (wlKey w0) = none) ∧
    deleteWorkload fl0 emptyCQ w0 = emptyCQ :=
  ⟨(claim_C7_delete_semantics fl0 cqWithW0 w0).1 w0 rfl,
   (claim_C7_delete_semantics fl0 emptyCQ w0).2 rfl⟩

theorem resetUsage_zero (u : FlavorResourceQuantities) (fr : FlavorResource) :
    resetUsage zeroFRQ u fr = 0 := by
  unfold resetUsage zeroFRQ
  split <;> rfl

theorem addLocalQueue_fold (q : LocalQueue) (l : List (String × Workload)) :
    ∀ qi : queue,
    (l.foldl (addLocalQueueStep q) qi).key = qi.key ∧
    (l.foldl (addLocalQueueStep q) qi).reservingWorkloads =
      qi.reservingWorkloads +
        ((l.filter (fun p => workloadBelongsToLocalQueue p.2 q)).length : Int) ∧
    (∀ fr, (l.foldl (addLocalQueueStep q) qi).totalReserved fr =
      qi.totalReserved fr +
        usageSum (l.filter (fun p => workloadBelongsToLocalQueue p.2 q)) fr) ∧
    (l.foldl (addLocalQueueStep q) qi).admittedWorkloads =
      qi.admittedWorkloads +
        ((l.filter (fun p =>
            workloadBelongsToLocalQueue p.2 q && p.2.admitted)).length : Int) ∧
    (∀ fr, (l.foldl (addLocalQueueStep q) qi).admittedUsage fr =
      qi.admittedUsage fr +
        usageSum (l.filter (fun p =>
          workloadBelongsToLocalQueue p.2 q && p.2.admitted)) fr) := by
  induction l with
  | nil =>
    intro qi
    refine ⟨rfl, by simp, fun fr => by simp [usageSum], by simp,
      fun fr => by simp [usageSum]⟩
  | cons p t ih =>
    intro qi
    rw [List.foldl_cons]
    obtain ⟨ik, ir, itr, ia, iau⟩ := ih (addLocalQueueStep q qi p)
    by_cases hb : workloadBelongsToLocalQueue p.2 q = true
    · by_cases ha : p.2.admitted = true
      · refine ⟨?_, ?_, ?_, ?_, ?_⟩
        · rw [ik]; simp [addLocalQueueStep, hb, ha]
        · rw [ir]
          simp only [addLocalQueueStep, hb, ha, if_true, List.filter_cons]
          simp
          push_cast
          ring
        · intro fr
          rw [itr fr]
          simp only [addLocalQueueStep, hb, ha, if_true, List.filter_cons]
          simp [usageSum_cons, updateFlavorUsage]
          ring
        · rw [ia]
          simp only [addLocalQueueStep, hb, ha, if_true, List.filter_cons]
          simp
          push_cast
          ring
        · intro fr
          rw [iau fr]
          simp only [addLocalQueueStep, hb, ha, if_true, List.filter_cons]
          simp [usageSum_cons, updateFlavorUsage]
          ring
      · refine ⟨?_, ?_, ?_, ?_, ?_⟩
        · rw [ik]; simp [addLocalQueueStep, hb, ha]
        · rw [ir]
          simp only [addLocalQueueStep, hb, ha, List.filter_cons]
          simp
          push_cast
          ring
        · intro fr
          rw [itr fr]
          simp only [addLocalQueueStep, hb, ha, List.filter_cons]
          simp [usageSum_cons, updateFlavorUsage]
          ring
        · rw [ia]
          simp only [addLocalQueueStep, hb, ha, List.filter_cons]
          simp
        · intro fr
          rw [iau fr]
          simp only [addLocalQueueStep, hb, ha, List.filter_cons]
          simp
    · refine ⟨?_, ?_, ?_, ?_, ?_⟩
      · rw [ik]; simp [addLocalQueueStep, hb]
      · rw [ir]
        simp only [addLocalQueueStep, hb, List.filter_cons]
        simp [hb]
      · intro fr
        rw [itr fr]
        simp only [addLocalQueueStep, hb, List.filter_cons]
        simp [hb]
      · rw [ia]
        simp only [addLocalQueueStep, hb, List.filter_cons]
        simp [hb]
      · intro fr
        rw [iau fr]
        simp only [addLocalQueueStep, hb, List.filter_cons]
        simp [hb]

/-- C8: a successful `addLocalQueue(q)` registers a queue whose
reserving/admitted counters are back-filled exactly from the already-known
workloads that belong to `q` (same namespace and queue name). -/
theorem claim_C8_addLocalQueue_backfill (c : clusterQueue) (q : LocalQueue)
    (h : assocLookup c.localQueues (queueKey q) = none) :
    (addLocalQueue c q).2 = none ∧
    ((assocLookup (addLocalQueue c q).1.localQueues (queueKey q)).map
        (fun lq => lq.reservingWorkloads)) =
      some ((c.Workloads.filter
        (fun p => workloadBelongsToLocalQueue p.2 q)).length : Int) ∧
    (∀ fr, ((assocLookup (addLocalQueue c q).1.localQueues (queueKey q)).map
        (fun lq => lq.totalReserved fr)) =
      some (usageSum (c.Workloads.filter
        (fun p => workloadBelongsToLocalQueue p.2 q)) fr)) ∧
    ((assocLookup (addLocalQueue c q).1.localQueues (queueKey q)).map
        (fun lq => lq.admittedWorkloads)) =
      some ((c.Workloads.filter
        (fun p => workloadBelongsToLocalQueue p.2 q && p.2.admitted)).length : Int) ∧
    (∀ fr, ((assocLookup (addLocalQueue c q).1.localQueues (queueKey q)).map
        (fun lq => lq.admittedUsage fr)) =
      some (usageSum (c.Workloads.filter
        (fun p => workloadBelongsToLocalQueue p.2 q && p.2.admitted)) fr)) := by
  have hneg : ¬ (assocLookup c.localQueues (queueKey q)).isSome = true := by
    simp [h]
  obtain ⟨ik, ir, itr, ia, iau⟩ :=
    addLocalQueue_fold q c.Workloads
      { key := queueKey q, reservingWorkloads := 0, admittedWorkloads := 0,
        totalReserved := resetUsage zeroFRQ c.resourceNode.Usage,
        admittedUsage := resetUsage zeroFRQ c.AdmittedUsage }
  unfold addLocalQueue
  rw [if_neg hneg]
  dsimp only [resetFlavorsAndResources]
  refine ⟨rfl, ?_, ?_, ?_, ?_⟩
  · rw [assocLookup_put_self, Option.map_some', ir]
    simp
  · intro fr
    rw [assocLookup_put_self, Option.map_some', itr fr]
    dsimp only
    rw [resetUsage_zero]
    simp
  · rw [assocLookup_put_self, Option.map_some', ia]
    simp
  · intro fr
    rw [assocLookup_put_self, Option.map_some', iau fr]
    dsimp only
    rw [resetUsage_zero]
    simp

/-- Witness for C8: registering `lq1` on a queue already holding the matching
admitted workload `w0` back-fills one reserving/admitted workload of usage 3. -/
theorem claim_C8_addLocalQueue_backfill_witness :
    (addLocalQueue cqWithW0 lq1).2 = none ∧
    ((assocLookup (addLocalQueue cqWithW0 lq1).1.localQueues (queueKey lq1)).map
        (fun lq => lq.reservingWorkloads)) = some 1 ∧
    ((assocLookup (addLocalQueue cqWithW0 lq1).1.localQueues (queueKey lq1)).map
        (fun lq => lq.totalReserved fr0)) = some 3 ∧
    ((assocLookup (addLocalQueue cqWithW0 lq1).1.localQueues (queueKey lq1)).map
        (fun lq => lq.admittedWorkloads)) = some 1 ∧
    ((assocLookup (addLocalQueue cqWithW0 lq1).1.localQueues (queueKey lq1)).map
        (fun lq => lq.admittedUsage fr0)) = some 3 := by
  obtain ⟨h1, h2, h3, h4, h5⟩ :=
    claim_C8_addLocalQueue_backfill cqWithW0 lq1 rfl
  exact ⟨h1, by rw [h2]; rfl, by rw [h3 fr0]; rfl, by rw [h4]; rfl,
    by rw [h5 fr0]; rfl⟩

/-- C10: `addLocalQueue` returns the queue-already-exists error and leaves
the state (in particular the localQueues table and all its counters)
untouched when the key is already registered. -/
theorem claim_C10_addLocalQueue_duplicate (c : clusterQueue) (q : LocalQueue)
    (lq : queue) (h : assocLookup c.localQueues (queueKey q) = some lq) :
    addLocalQueue c q = (c, some errQueueAlreadyExists) := by
  unfold addLocalQueue
  rw [if_pos (by rw [h]; rfl)]

/-- Witness for C10 at a concrete queue with `lq1` registered. -/
theorem claim_C10_addLocalQueue_duplicate_witness :
    addLocalQueue cqWithLQ lq1 = (cqWithLQ, some errQueueAlreadyExists) :=
  claim_C10_addLocalQueue_duplicate cqWithLQ lq1 lqQueue0 rfl

theorem statusConditions_congr (fl : Flags) {c c' : clusterQueue}
    (h : statusFields c = statusFields c') :
    statusConditions fl c = statusConditions fl c' := by
  simp only [statusFields, Prod.mk.injEq] at h
  obtain ⟨h1, h2, h3, h4, h5, h6, h7, h8, h9, h10, h11⟩ := h
  simp only [statusConditions, isTASViolated, isTASSynced,
    h1, h2, h3, h4, h5, h6, h7, h8, h9, h10, h11]

theorem statusInv_congr (fl : Flags) {c c' : clusterQueue}
    (hf : statusFields c = statusFields c') (hst : c.Status = c'.Status) :
    statusInv fl c ↔ statusInv fl c' := by
  unfold statusInv
  rw [statusConditions_congr fl hf, hst]

theorem updateWorkloadUsage_statusFields (fl : Flags) (c : clusterQueue)
    (wi : Workload) (m : Int) :
    statusFields (updateWorkloadUsage fl c wi m) = statusFields c ∧
    (updateWorkloadUsage fl c wi m).Status = c.Status ∧
    (updateWorkloadUsage fl c wi m).AllocatableResourceGeneration =
      c.AllocatableResourceGeneration := by
  obtain ⟨s, hs⟩ := updateWorkloadUsage_shape fl c wi m
  rw [hs]
  exact ⟨rfl, rfl, rfl⟩

theorem deleteWorkload_statusFields (fl : Flags) (c : clusterQueue) (w : Workload) :
    statusFields (deleteWorkload fl c w) = statusFields c ∧
    (deleteWorkload fl c w).Status = c.Status ∧
    c.AllocatableResourceGeneration ≤
      (deleteWorkload fl c w).AllocatableResourceGeneration := by
  cases hl : assocLookup c.Workloads (wlKey w) with
  | none => rw [deleteWorkload_eq_of_none hl]; exact ⟨rfl, rfl, le_refl _⟩
  | some wi =>
    obtain ⟨wnr, s, hs⟩ := deleteWorkload_shape fl hl
    rw [hs]
    exact ⟨rfl, rfl, by simp⟩

theorem addOrUpdateWorkload_statusFields (fl : Flags) (c : clusterQueue)
    (w : Workload) :
    statusFields (addOrUpdateWorkload fl c w) = statusFields c ∧
    (addOrUpdateWorkload fl c w).Status = c.Status ∧
    c.AllocatableResourceGeneration ≤
      (addOrUpdateWorkload fl c w).AllocatableResourceGeneration := by
  cases hl : assocLookup c.Workloads (wlKey w) with
  | none =>
    obtain ⟨wnr, s, hs⟩ := addOrUpdateWorkload_shape_of_none fl hl
    rw [hs]
    exact ⟨rfl, rfl, le_refl _⟩
  | some wi =>
    rw [addOrUpdateWorkload_eq_of_present (by rw [hl]; rfl)]
    obtain ⟨d1, d2, d3⟩ := deleteWorkload_statusFields fl c w
    obtain ⟨wnr, s, hs⟩ :=
      addOrUpdateWorkload_shape_of_none fl
        (deleteWorkload_lookup_self fl c w)
    rw [hs]
    exact ⟨d1, d2, d3⟩

theorem tasDelayedAccountingLoop_statusFields (fl : Flags) (c0 : clusterQueue) :
    statusFields (tasDelayedAccountingLoop fl c0) = statusFields c0 ∧
    (tasDelayedAccountingLoop fl c0).Status = c0.Status ∧
    c0.AllocatableResourceGeneration ≤
      (tasDelayedAccountingLoop fl c0).AllocatableResourceGeneration := by
  unfold tasDelayedAccountingLoop
  generalize c0.Workloads = l
  induction l generalizing c0 with
  | nil => exact ⟨rfl, rfl, le_refl _⟩
  | cons p t ih =>
    rw [List.foldl_cons]
    by_cases hmem : p.1 ∈ c0.workloadsNotAccountedForTAS
    · rw [if_pos hmem]
      obtain ⟨a1, a2, a3⟩ := addOrUpdateWorkload_statusFields fl c0 p.2
      obtain ⟨i1, i2, i3⟩ := ih { addOrUpdateWorkload fl c0 p.2 with
        workloadsNotAccountedForTAS :=
          listErase (addOrUpdateWorkload fl c0 p.2).workloadsNotAccountedForTAS p.1 }
      exact ⟨i1.trans a1, i2.trans a2, le_trans a3 i3⟩
    · rw [if_neg hmem]
      exact ih c0

theorem statusInv_recomputed (fl : Flags) (mid : clusterQueue) :
    statusInv fl { mid with Status :=
      (if mid.Status = CQStatus.terminating then CQStatus.terminating
       else if statusConditions fl mid then CQStatus.pending
       else CQStatus.active) } := by
  unfold statusInv
  have hc : ∀ X, statusConditions fl { mid with Status := X } =
      statusConditions fl mid := fun X => statusConditions_congr fl rfl
  by_cases ht : mid.Status = CQStatus.terminating
  · rw [if_pos ht]
    dsimp only
    rw [hc]
    simp
  · rw [if_neg ht]
    by_cases hcs : statusConditions fl mid = true
    · rw [if_pos hcs]
      dsimp only
      rw [hc]
      simp [hcs]
    · rw [if_neg hcs]
      dsimp only
      rw [hc]
      simp [hcs]

theorem updateQueueStatus_statusInv (fl : Flags) (c : clusterQueue) :
    statusInv fl (updateQueueStatus fl c) := by
  unfold updateQueueStatus
  dsimp only
  exact statusInv_recomputed fl _

theorem updateQueueStatus_terminating (fl : Flags) (c : clusterQueue)
    (h : c.Status = CQStatus.terminating) :
    (updateQueueStatus fl c).Status = CQStatus.terminating := by
  unfold updateQueueStatus
  dsimp only
  split
  · have hst := (tasDelayedAccountingLoop_statusFields fl c).2.1
    simp [hst, h]
  · simp [h]

theorem updateQueueStatus_gen_le (fl : Flags) (c : clusterQueue) :
    c.AllocatableResourceGeneration ≤
      (updateQueueStatus fl c).AllocatableResourceGeneration := by
  unfold updateQueueStatus
  dsimp only
  split
  · exact (tasDelayedAccountingLoop_statusFields fl c).2.2
  · exact le_refl _

theorem updateLabelKeys_shape (c : clusterQueue)
    (flavors : List (String × ResourceFlavorSpec)) :
    ∃ rgs mf tf, updateLabelKeys c flavors =
      { c with ResourceGroups := rgs, missingFlavors := mf, tasFlavors := tf } :=
  ⟨_, _, _, rfl⟩

theorem UpdateWithFlavors_statusInv (fl : Flags) (c : clusterQueue)
    (flavors : List (String × ResourceFlavorSpec)) :
    statusInv fl (UpdateWithFlavors fl c flavors) :=
  updateQueueStatus_statusInv fl _

theorem UpdateWithFlavors_terminating (fl : Flags) (c : clusterQueue)
    (flavors : List (String × ResourceFlavorSpec))
    (h : c.Status = CQStatus.terminating) :
    (UpdateWithFlavors fl c flavors).Status = CQStatus.terminating := by
  obtain ⟨rgs, mf, tf, hs⟩ := updateLabelKeys_shape c flavors
  unfold UpdateWithFlavors
  rw [hs]
  exact updateQueueStatus_terminating fl _ h

theorem UpdateWithFlavors_gen_le (fl : Flags) (c : clusterQueue)
    (flavors : List (String × ResourceFlavorSpec)) :
    c.AllocatableResourceGeneration ≤
      (UpdateWithFlavors fl c flavors).AllocatableResourceGeneration := by
  obtain ⟨rgs, mf, tf, hs⟩ := updateLabelKeys_shape c flavors
  unfold UpdateWithFlavors
  rw [hs]
  exact updateQueueStatus_gen_le fl _

theorem runCondSets_unchanged (c : clusterQueue) (l : List CondSet) :
    ∀ p : clusterQueue × Bool, (p.2 = false → p.1 = c) →
      ((runCondSets p l).2 = false → (runCondSets p l).1 = c) := by
  induction l with
  | nil => intro p hp; exact hp
  | cons u rest ih =>
    intro p hp
    rw [runCondSets]
    split
    · exact ih _ (by simp)
    · exact ih _ hp

theorem runCondSets_Status (c : clusterQueue) (l : List CondSet)
    (hs : ∀ u ∈ l, ∀ x, (u.apply x).Status = x.Status) :
    ∀ p : clusterQueue × Bool, p.1.Status = c.Status →
      (runCondSets p l).1.Status = c.Status := by
  induction l with
  | nil => intro p hp; exact hp
  | cons u rest ih =>
    intro p hp
    rw [runCondSets]
    have hs' : ∀ u' ∈ rest, ∀ x, (u'.apply x).Status = x.Status :=
      fun u' hu' => hs u' (List.mem_cons_of_mem u hu')
    split
    · exact ih hs' _ ((hs u (List.mem_cons_self u rest) p.1).trans hp)
    · exact ih hs' _ hp

theorem runCondSets_gen (c : clusterQueue) (l : List CondSet)
    (hs : ∀ u ∈ l, ∀ x, (u.apply x).AllocatableResourceGeneration =
      x.AllocatableResourceGeneration) :
    ∀ p : clusterQueue × Bool,
      p.1.AllocatableResourceGeneration = c.AllocatableResourceGeneration →
      (runCondSets p l).1.AllocatableResourceGeneration =
        c.AllocatableResourceGeneration := by
  induction l with
  | nil => intro p hp; exact hp
  | cons u rest ih =>
    intro p hp
    rw [runCondSets]
    have hs' : ∀ u' ∈ rest, ∀ x, (u'.apply x).AllocatableResourceGeneration =
        x.AllocatableResourceGeneration :=
      fun u' hu' => hs u' (List.mem_cons_of_mem u hu')
    split
    · exact ih hs' _ ((hs u (List.mem_cons_self u rest) p.1).trans hp)
    · exact ih hs' _ hp

theorem condChain_statusInv (fl : Flags) (c : clusterQueue) (l : List CondSet)
    (h : statusInv fl c) :
    statusInv fl (if (runCondSets (c, false) l).2 = true then
      updateQueueStatus fl (runCondSets (c, false) l).1
      else (runCondSets (c, false) l).1) := by
  split
  · exact updateQueueStatus_statusInv fl _
  · case isFalse hfalse =>
    rw [runCondSets_unchanged c l (c, false) (fun _ => rfl)
      (Bool.not_eq_true _ ▸ eq_false_of_ne_true hfalse)]
    exact h

theorem condChain_Status (fl : Flags) (c : clusterQueue) (l : List CondSet)
    (hs : ∀ u ∈ l, ∀ x, (u.apply x).Status = x.Status)
    (h : c.Status = CQStatus.terminating) :
    (if (runCondSets (c, false) l).2 = true then
      updateQueueStatus fl (runCondSets (c, false) l).1
      else (runCondSets (c, false) l).1).Status = CQStatus.terminating := by
  have hS : (runCondSets (c, false) l).1.Status = c.Status :=
    runCondSets_Status c l hs (c, false) rfl
  split
  · exact updateQueueStatus_terminating fl _ (hS.trans h)
  · exact hS.trans h

theorem condChain_gen (fl : Flags) (c : clusterQueue) (l : List CondSet)
    (hs : ∀ u ∈ l, ∀ x, (u.apply x).AllocatableResourceGeneration =
      x.AllocatableResourceGeneration) :
    c.AllocatableResourceGeneration ≤
      (if (runCondSets (c, false) l).2 = true then
        updateQueueStatus fl (runCondSets (c, false) l).1
        else (runCondSets (c, false) l).1).AllocatableResourceGeneration := by
  have hG : (runCondSets (c, false) l).1.AllocatableResourceGeneration =
      c.AllocatableResourceGeneration :=
    runCondSets_gen c l hs (c, false) rfl
  split
  · exact le_trans (le_of_eq hG.symm) (updateQueueStatus_gen_le fl _)
  · exact le_of_eq hG.symm

theorem updateWithAdmissionChecks_statusInv (fl : Flags) (c : clusterQueue)
    (checks : List (String × AdmissionCheck)) (h : statusInv fl c) :
    statusInv fl (updateWithAdmissionChecks fl c checks) := by
  unfold updateWithAdmissionChecks
  dsimp only
  exact condChain_statusInv fl c _ h

theorem updateWithAdmissionChecks_terminating (fl : Flags) (c : clusterQueue)
    (checks : List (String × AdmissionCheck))
    (h : c.Status = CQStatus.terminating) :
    (updateWithAdmissionChecks fl c checks).Status = CQStatus.terminating := by
  unfold updateWithAdmissionChecks
  dsimp only
  refine condChain_Status fl c _ ?_ h
  intro u hu x
  rcases List.mem_append.mp hu with h' | h'
  · rcases List.mem_append.mp h' with h'' | h''
    · rcases h'' with _ | ⟨_, _ | ⟨_, h3⟩⟩
      · rfl
      · rfl
      · cases h3
    · split at h''
      · rcases h'' with _ | ⟨_, _ | ⟨_, h3⟩⟩
        · rfl
        · rfl
        · cases h3
      · cases h''
  · rcases h' with _ | ⟨_, _ | ⟨_, _ | ⟨_, h4⟩⟩⟩
    · rfl
    · rfl
    · rfl
    · cases h4

theorem updateWithAdmissionChecks_gen_le (fl : Flags) (c : clusterQueue)
    (checks : List (String × AdmissionCheck)) :
    c.AllocatableResourceGeneration ≤
      (updateWithAdmissionChecks fl c checks).AllocatableResourceGeneration := by
  unfold updateWithAdmissionChecks
  dsimp only
  refine condChain_gen fl c _ ?_
  intro u hu x
  rcases List.mem_append.mp hu with h' | h'
  · rcases List.mem_append.mp h' with h'' | h''
    · rcases h'' with _ | ⟨_, _ | ⟨_, h3⟩⟩
      · rfl
      · rfl
      · cases h3
    · split at h''
      · rcases h'' with _ | ⟨_, _ | ⟨_, h3⟩⟩
        · rfl
        · rfl
        · cases h3
      · cases h''
  · rcases h' with _ | ⟨_, _ | ⟨_, _ | ⟨_, h4⟩⟩⟩
    · rfl
    · rfl
    · rfl
    · cases h4

theorem updateQuotasAndResourceGroups_fst (c : clusterQueue)
    (rgsIn : List KueueResourceGroup) :
    (updateQuotasAndResourceGroups c rgsIn).1 =
      { c with ResourceGroups := createdResourceGroups rgsIn,
               resourceNode :=
                 { c.resourceNode with Quotas := createResourceQuotas rgsIn } } :=
  rfl

theorem updateClusterQueue_statusInv (fl : Flags) (c : clusterQueue)
    (spec : CQSpec) (flavors : List (String × ResourceFlavorSpec))
    (checks : List (String × AdmissionCheck)) (selOk : Bool)
    (h : statusInv fl c) :
    statusInv fl (updateClusterQueue fl c spec flavors checks selOk).1 := by
  unfold updateClusterQueue
  dsimp only
  repeat' split
  all_goals first
    | exact updateWithAdmissionChecks_statusInv fl _ checks
        (UpdateWithFlavors_statusInv fl _ flavors)
    | exact h

theorem updateClusterQueue_terminating (fl : Flags) (c : clusterQueue)
    (spec : CQSpec) (flavors : List (String × ResourceFlavorSpec))
    (checks : List (String × AdmissionCheck)) (selOk : Bool)
    (h : c.Status = CQStatus.terminating) :
    (updateClusterQueue fl c spec flavors checks selOk).1.Status =
      CQStatus.terminating := by
  unfold updateClusterQueue
  dsimp only
  repeat' split
  all_goals first
    | exact updateWithAdmissionChecks_terminating fl _ checks
        (UpdateWithFlavors_terminating fl _ flavors h)
    | exact h

theorem updateClusterQueue_gen_le (fl : Flags) (c : clusterQueue)
    (spec : CQSpec) (flavors : List (String × ResourceFlavorSpec))
    (checks : List (String × AdmissionCheck)) (selOk : Bool) :
    c.AllocatableResourceGeneration ≤
      (updateClusterQueue fl c spec flavors checks selOk).1.AllocatableResourceGeneration := by
  have hq : c.AllocatableResourceGeneration ≤
      (if (updateQuotasAndResourceGroups c spec.resourceGroups).2 = true then
        updateClusterQueueResourceNode (updateQuotasAndResourceGroups c spec.resourceGroups).1
       else (updateQuotasAndResourceGroups c spec.resourceGroups).1).AllocatableResourceGeneration := by
    split
    · show c.AllocatableResourceGeneration ≤ c.AllocatableResourceGeneration + 1
      omega
    · exact le_refl _
  unfold updateClusterQueue
  dsimp only
  split
  · exact hq
  · refine le_trans hq (le_trans ?_ (updateWithAdmissionChecks_gen_le fl _ checks))
    exact UpdateWithFlavors_gen_le fl _ flavors

/-- C1: the active-iff-no-inactivity-condition invariant holds after any
sequence of `updateClusterQueue` / `UpdateWithFlavors` /
`updateWithAdmissionChecks` operations: the queue's Status is `active` iff
none of the pending conditions (stopped, missing flavors, missing or
inactive admission checks, admission-check uniqueness violations, TAS
violations) holds and the status is not `terminating`. -/
theorem claim_C1_active_iff_conditions (fl : Flags) (c : clusterQueue)
    (ops : List CQOp) (h : statusInv fl c) :
    statusInv fl (applyCQOps fl c ops) := by
  induction ops generalizing c with
  | nil => exact h
  | cons op t ih =>
    refine ih (applyCQOp fl c op) ?_
    cases op with
    | update spec flavors checks selOk =>
      exact updateClusterQueue_statusInv fl c spec flavors checks selOk h
    | withFlavors flavors => exact UpdateWithFlavors_statusInv fl c flavors
    | withChecks checks =>
      exact updateWithAdmissionChecks_statusInv fl c checks h

/-- Witness for C1 at a concrete queue and operation sequence. -/
theorem claim_C1_active_iff_conditions_witness :
    statusInv fl0 activeCQ ∧
    statusInv fl0 (applyCQOps fl0 activeCQ
      [CQOp.withChecks [], CQOp.withFlavors []]) :=
  ⟨by unfold statusInv; decide, claim_C1_active_iff_conditions fl0 activeCQ _
    (by unfold statusInv; decide)⟩

/-- C9: once a queue is `terminating` it stays `terminating` under every
flavor, admission-check or full update, and `inactiveReason` keeps returning
the Terminating reason with its fixed message. -/
theorem claim_C9_terminating_absorbing (fl : Flags) (c : clusterQueue)
    (ops : List CQOp) (h : c.Status = CQStatus.terminating) :
    (applyCQOps fl c ops).Status = CQStatus.terminating ∧
    inactiveReason fl (applyCQOps fl c ops) =
      (ReasonTerminating, "Can't admit new workloads; clusterQueue is terminating") := by
  have hst : (applyCQOps fl c ops).Status = CQStatus.terminating := by
    induction ops generalizing c with
    | nil => exact h
    | cons op t ih =>
      refine ih (applyCQOp fl c op) ?_
      cases op with
      | update spec flavors checks selOk =>
        exact updateClusterQueue_terminating fl c spec flavors checks selOk h
      | withFlavors flavors => exact UpdateWithFlavors_terminating fl c flavors h
      | withChecks checks =>
        exact updateWithAdmissionChecks_terminating fl c checks h
  refine ⟨hst, ?_⟩
  unfold inactiveReason
  rw [hst]

/-- Witness for C9 at a concrete terminating queue. -/
theorem claim_C9_terminating_absorbing_witness :
    (applyCQOps fl0 terminatingCQ [CQOp.withFlavors []]).Status =
      CQStatus.terminating ∧
    inactiveReason fl0 (applyCQOps fl0 terminatingCQ [CQOp.withFlavors []]) =
      (ReasonTerminating, "Can't admit new workloads; clusterQueue is terminating") :=
  claim_C9_terminating_absorbing fl0 terminatingCQ [CQOp.withFlavors []] rfl

/-- C5: `AllocatableResourceGeneration` never decreases under any sequence of
cache operations, and strictly increases when `updateClusterQueue` detects a
quota/resource-group change and when an existing workload is deleted. -/
theorem claim_C5_generation_monotone (fl : Flags) (c : clusterQueue) :
    (∀ ops : List CacheOp, c.AllocatableResourceGeneration ≤
      (applyCacheOps fl c ops).AllocatableResourceGeneration) ∧
    (∀ (spec : CQSpec) flavors checks selOk,
      (updateQuotasAndResourceGroups c spec.resourceGroups).2 = true →
      c.AllocatableResourceGeneration <
        (updateClusterQueue fl c spec flavors checks selOk).1.AllocatableResourceGeneration) ∧
    (∀ w wi, assocLookup c.Workloads (wlKey w) = some wi →
      c.AllocatableResourceGeneration <
        (deleteWorkload fl c w).AllocatableResourceGeneration) := by
  have hop : ∀ (c' : clusterQueue) (op : CacheOp),
      c'.AllocatableResourceGeneration ≤
        (applyCacheOp fl c' op).AllocatableResourceGeneration := by
    intro c' op
    cases op with
    | updateCQ spec flavors checks selOk =>
      exact updateClusterQueue_gen_le fl c' spec flavors checks selOk
    | withFlavors flavors => exact UpdateWithFlavors_gen_le fl c' flavors
    | withChecks checks => exact updateWithAdmissionChecks_gen_le fl c' checks
    | addWl w =>
      show c'.AllocatableResourceGeneration ≤
        (addWorkload fl c' w).1.AllocatableResourceGeneration
      unfold addWorkload
      split
      · exact le_refl _
      · exact (addOrUpdateWorkload_statusFields fl c' w).2.2
    | addOrUpdateWl w => exact (addOrUpdateWorkload_statusFields fl c' w).2.2
    | deleteWl w => exact (deleteWorkload_statusFields fl c' w).2.2
    | forgetWl w =>
      show c'.AllocatableResourceGeneration ≤
        (forgetWorkload fl c' w).AllocatableResourceGeneration
      unfold forgetWorkload
      dsimp only
      exact (deleteWorkload_statusFields fl c' w).2.2
    | addLQ q =>
      show c'.AllocatableResourceGeneration ≤
        (addLocalQueue c' q).1.AllocatableResourceGeneration
      unfold addLocalQueue
      dsimp only
      split
      · exact le_refl _
      · exact le_refl _
    | deleteLQ q => exact le_refl _
  refine ⟨?_, ?_, ?_⟩
  · intro ops
    induction ops generalizing c with
    | nil => exact le_refl _
    | cons op t ih => exact le_trans (hop c op) (ih (applyCacheOp fl c op))
  · intro spec flavors checks selOk hchange
    have h1 : c.AllocatableResourceGeneration <
        (updateClusterQueueResourceNode
          (updateQuotasAndResourceGroups c spec.resourceGroups).1).AllocatableResourceGeneration := by
      show c.AllocatableResourceGeneration < c.AllocatableResourceGeneration + 1
      omega
    unfold updateClusterQueue
    dsimp only
    rw [if_pos hchange]
    split
    · exact h1
    · refine lt_of_lt_of_le h1
        (le_trans ?_ (updateWithAdmissionChecks_gen_le fl _ checks))
      exact UpdateWithFlavors_gen_le fl _ flavors
  · intro w wi hl
    obtain ⟨wnr, s, hs⟩ := deleteWorkload_shape fl hl
    rw [hs]
    show c.AllocatableResourceGeneration < c.AllocatableResourceGeneration + 1
    omega

/-- Witness for C5 at a concrete queue: a delete, a quota-changing update and
an operation sequence. -/
theorem claim_C5_generation_monotone_witness :
    cqWithW0.AllocatableResourceGeneration ≤
      (applyCacheOps fl0 cqWithW0
        [CacheOp.deleteWl w0, CacheOp.addLQ lq1]).AllocatableResourceGeneration ∧
    cqWithW0.AllocatableResourceGeneration <
      (updateClusterQueue fl0 cqWithW0 spec0 [] [] true).1.AllocatableResourceGeneration ∧
    cqWithW0.AllocatableResourceGeneration <
      (deleteWorkload fl0 cqWithW0 w0).AllocatableResourceGeneration :=
  ⟨(claim_C5_generation_monotone fl0 cqWithW0).1 _,
   (claim_C5_generation_monotone fl0 cqWithW0).2.1 spec0 [] [] true (by decide),
   (claim_C5_generation_monotone fl0 cqWithW0).2.2 w0 w0 rfl⟩

theorem appendIf_closed (a b : List String) (cond : Prop) [Decidable cond]
    (r m : List String) :
    appendIf (a, b) cond r m =
      (a ++ (if cond then r else []), b ++ (if cond then m else [])) := by
  unfold appendIf
  split <;> simp

theorem foldl_appendIf_tas (c : clusterQueue) (l : List (String × String)) :
    ∀ ab : List String × List String,
    (l.foldl
      (fun rm p => appendIf rm (¬ c.tasCacheHas p.1) [ReasonTopologyNotFound]
        ["there is no Topology " ++ goQuoted p.2 ++ " for TAS flavor " ++ goQuoted p.1])
      ab) =
    (ab.1 ++ (l.filter (fun p => ¬ c.tasCacheHas p.1)).map
        (fun _ => ReasonTopologyNotFound),
     ab.2 ++ (l.filter (fun p => ¬ c.tasCacheHas p.1)).map
        (fun p => "there is no Topology " ++ goQuoted p.2 ++ " for TAS flavor " ++ goQuoted p.1)) := by
  induction l with
  | nil => intro ab; simp
  | cons p t ih =>
    intro ab
    rw [List.foldl_cons, ih]
    by_cases hp : c.tasCacheHas p.1 = true
    · unfold appendIf
      rw [if_neg (by simpa using hp)]
      simp [List.filter_cons, hp]
    · have hf : c.tasCacheHas p.1 = false := by
        revert hp
        cases c.tasCacheHas p.1 <;> simp
      unfold appendIf
      rw [if_pos hp]
      simp [List.filter_cons, hf]

theorem pendingReasonsMessages_eq (fl : Flags) (c : clusterQueue) :
    pendingReasonsMessages fl c =
      (specApplicableReasons fl c, specApplicableMessages fl c) := by
  unfold pendingReasonsMessages specApplicableReasons specApplicableMessages optCause optMsg
  dsimp only
  by_cases htas : fl.topologyAwareScheduling = true ∧ ¬ c.tasFlavors.isEmpty = true
  · rw [if_pos htas, if_pos htas, if_pos htas, foldl_appendIf_tas]
    simp only [appendIf_closed]
    simp [List.append_assoc]
  · rw [if_neg htas, if_neg htas, if_neg htas]
    simp only [appendIf_closed]
    simp [List.append_assoc]

theorem mem_optCause {b : Prop} [Decidable b] {s x : String}
    (h : x ∈ optCause b s) : x = s := by
  unfold optCause at h
  split at h
  · simpa using h
  · cases h

theorem specApplicableReasons_subset (fl : Flags) (c : clusterQueue)
    (x : String) (hx : x ∈ specApplicableReasons fl c) : x ∈ reasonEnum := by
  unfold specApplicableReasons at hx
  simp only [List.mem_append] at hx
  rcases hx with ((((((((h | h) | h) | h) | h) | h) | h) | h) | h)
  · rw [mem_optCause h]; decide
  · rw [mem_optCause h]; decide
  · rw [mem_optCause h]; decide
  · rw [mem_optCause h]; decide
  · rw [mem_optCause h]; decide
  · rw [mem_optCause h]; decide
  · rw [mem_optCause h]; decide
  · rw [mem_optCause h]; decide
  · split at h
    · simp only [List.mem_append] at h
      rcases h with (h | h) | h
      · rw [mem_optCause h]; decide
      · rw [mem_optCause h]; decide
      · obtain ⟨p, hp, hpx⟩ := List.mem_map.mp h
        rw [← hpx]; decide
    · cases h

/-- C3: whenever the status is `pending`, `inactiveReason` returns the first
applicable cause as reason code and the comma-joined concatenation of all
applicable cause messages, in the documented fixed order (Unknown when no
cause is recorded); and the reason code is always drawn from the enumerated
set (Ready when active, Terminating when terminating). -/
theorem claim_C3_inactiveReason_causes (fl : Flags) (c : clusterQueue) :
    (inactiveReason fl c).1 ∈ reasonEnum ∧
    (c.Status = CQStatus.pending →
      inactiveReason fl c =
        (match specApplicableReasons fl c with
         | [] => (ReasonUnknown, "Can't admit new workloads.")
         | r :: _ =>
             (r, TruncateConditionMessage
               ("Can't admit new workloads: " ++
                String.intercalate ", " (specApplicableMessages fl c) ++ ".")))) := by
  have hpend : c.Status = CQStatus.pending →
      inactiveReason fl c =
        (match specApplicableReasons fl c with
         | [] => (ReasonUnknown, "Can't admit new workloads.")
         | r :: _ =>
             (r, TruncateConditionMessage
               ("Can't admit new workloads: " ++
                String.intercalate ", " (specApplicableMessages fl c) ++ "."))) := by
    intro hst
    unfold inactiveReason
    rw [hst]
    dsimp only
    rw [pendingReasonsMessages_eq]
  refine ⟨?_, hpend⟩
  cases hst : c.Status with
  | terminating =>
    unfold inactiveReason
    rw [hst]
    dsimp only
    decide
  | active =>
    unfold inactiveReason
    rw [hst]
    dsimp only
    decide
  | pending =>
    rw [hpend hst]
    cases hr : specApplicableReasons fl c with
    | nil =>
      dsimp only
      decide
    | cons r rest =>
      dsimp only
      exact specApplicableReasons_subset fl c r
        (hr ▸ List.mem_cons_self r rest)

/-- Witness for C3 at a concrete pending queue with a missing flavor. -/
theorem claim_C3_inactiveReason_causes_witness :
    (inactiveReason fl0 pendingMissingCQ).1 ∈ reasonEnum ∧
    inactiveReason fl0 pendingMissingCQ =
      (match specApplicableReasons fl0 pendingMissingCQ with
       | [] => (ReasonUnknown, "Can't admit new workloads.")
       | r :: _ =>
           (r, TruncateConditionMessage
             ("Can't admit new workloads: " ++
              String.intercalate ", " (specApplicableMessages fl0 pendingMissingCQ) ++ "."))) :=
  ⟨(claim_C3_inactiveReason_causes fl0 pendingMissingCQ).1,
   (claim_C3_inactiveReason_causes fl0 pendingMissingCQ).2 rfl⟩

end KueueCache
